import Mathlib

/-!
A shallow embedding of `SwitchMonitorInput.cpp`

The development follows the source file top-down:

* `std::map` is an association list kept in strictly ascending key order
  (`std_map.insert`, `std_map.assign` for `operator[] =`, `std_map.find`);
* `MonitorInputTypes` is the pair of maps built by its constructor;
* `MonitorControl` is the list of displays with their physical monitors; the
  DDC/CI transport of `Dxva2.lib` is a parameter (`Dxva2`), and every call made
  to it is recorded in the `World`;
* discovery and teardown run against the host functions of `Win32`, whose calls and
  the output to `std::wcout` are recorded in the `Process`;
* `ParseArgs` and `wmain` work on the list `argv`; `std::stoi` and the `int`
  arithmetic on its result are modelled with their 32-bit range.

Machine integers (`BYTE`, `DWORD`, handles) are natural numbers; a
`std::wstring` is a `String`; a thrown `wruntime_error` is the `Except.error`
branch of a result.
-/

namespace SwitchMonitorInput

/-! ## Basic types -/

/-- The type `BYTE`: an unsigned 8-bit value, held as a natural number below 256. -/
abbrev BYTE := Nat

/-- The type `DWORD`: an unsigned 32-bit value, held as a natural number. -/
abbrev DWORD := Nat

/-- The `HANDLE` of a physical monitor (opaque to the program). -/
abbrev HANDLE := Nat

/-- The `HMONITOR` of a logical display (opaque to the program). -/
abbrev HMONITOR := Nat

/-- The type `std::wstring`: a sequence of wide characters, compared by their codes. -/
abbrev wstring := String

/-- The exception class `wruntime_error`: it carries its wide message. -/
structure wruntime_error where
  wide_message : wstring
  deriving DecidableEq, Repr

/-! ## `std::map` -/

namespace std_map

variable {K V : Type}

/-- The member `std::map::find` for the comparison `less` (the `Compare` parameter of the map): the
value stored under `key`, `none` for `end()`. Two keys are equivalent when neither is
less than the other. -/
def find (less : K → K → Bool) : List (K × V) → K → Option V
  | [], _ => none
  | (k, v) :: rest, key =>
    if less key k then none
    else if less k key then find less rest key
    else some v

/-- The member `std::map::insert`: puts the pair at its place in key order; an existing entry with
an equivalent key is left as it is. -/
def insert (less : K → K → Bool) : List (K × V) → K × V → List (K × V)
  | [], p => [p]
  | (k, v) :: rest, p =>
    if less p.1 k then p :: (k, v) :: rest
    else if less k p.1 then (k, v) :: insert less rest p
    else (k, v) :: rest

/-- The assignment `m[key] = value`: `operator[]` creates the entry at its place in key
order when it is missing, and the assignment overwrites the mapped value. -/
def assign (less : K → K → Bool) : List (K × V) → K → V → List (K × V)
  | [], key, value => [(key, value)]
  | (k, v) :: rest, key, value =>
    if less key k then (key, value) :: (k, v) :: rest
    else if less k key then (k, v) :: assign less rest key value
    else (k, value) :: rest

end std_map

/-- The comparison `std::less<BYTE>`, the key order of `std::map<BYTE, std::wstring>`. -/
def less_BYTE (a b : BYTE) : Bool := decide (a < b)

/-- The comparison `std::less<std::wstring>`, the key order of `std::map<std::wstring, BYTE>`:
lexicographic comparison of the characters by their code. -/
def less_wstring (a b : wstring) : Bool := decide (a.data < b.data)

/-! ## `class MonitorInputTypes` -/

/-- The two data members of `MonitorInputTypes`. -/
structure MonitorInputTypes where
  _inputCodeToName : List (BYTE × wstring)
  _inputNameToCode : List (wstring × BYTE)
  deriving DecidableEq, Repr

namespace MonitorInputTypes

/-- The nineteen `_inputCodeToName.insert` statements of the constructor, in program
order, starting from the empty map. -/
def ctor_inputCodeToName : List (BYTE × wstring) :=
  [ (0x01, "RGB1"), (0x02, "RGB2"), (0x03, "DVI1"), (0x04, "DVI2"),
    (0x05, "COMPOSITE1"), (0x06, "COMPOSITE2"), (0x07, "SVIDEO1"), (0x08, "SVIDEO2"),
    (0x09, "TUNER1"), (0x0A, "TUNER2"), (0x0B, "TUNER3"),
    (0x0C, "COMPONENT1"), (0x0D, "COMPONENT2"), (0x0E, "COMPONENT3"),
    (0x0F, "DP1"), (0x10, "DP2"), (0x11, "HDMI1"), (0x12, "HDMI2"),
    (0x1b, "USB-C") ].foldl (std_map.insert less_BYTE) []

/-- The constructor's loop `for (pair : _inputCodeToName) _inputNameToCode[pair.second] = pair.first`,
run over the first map in its iteration (key) order. -/
def ctor_inputNameToCode (codeToName : List (BYTE × wstring)) : List (wstring × BYTE) :=
  codeToName.foldl (fun m pair => std_map.assign less_wstring m pair.2 pair.1) []

/-- The constructor `MonitorInputTypes::MonitorInputTypes()`: both maps as it leaves them. -/
def ctor : MonitorInputTypes :=
  { _inputCodeToName := ctor_inputCodeToName
    _inputNameToCode := ctor_inputNameToCode ctor_inputCodeToName }

/-- The method `MonitorInputTypes::InputCodeToName`. -/
def InputCodeToName (self : MonitorInputTypes) (inputCode : BYTE) : wstring :=
  match std_map.find less_BYTE self._inputCodeToName inputCode with
  | none => "UNKNOWN"
  | some name => name

/-- The method `MonitorInputTypes::InputNameToCode`; the `throw` is the `error` result. -/
def InputNameToCode (self : MonitorInputTypes) (inputName : wstring) :
    Except wruntime_error BYTE :=
  match std_map.find less_wstring self._inputNameToCode inputName with
  | none => .error ⟨"Invalid input name"⟩
  | some code => .ok code

end MonitorInputTypes

/-- The fixed table as the specification lists it (code, name), in its order. It is the
reference the maps built by the constructor are compared with. -/
def spec_fixedTable : List (BYTE × wstring) :=
  [ (0x01, "RGB1"), (0x02, "RGB2"), (0x03, "DVI1"), (0x04, "DVI2"),
    (0x05, "COMPOSITE1"), (0x06, "COMPOSITE2"), (0x07, "SVIDEO1"), (0x08, "SVIDEO2"),
    (0x09, "TUNER1"), (0x0A, "TUNER2"), (0x0B, "TUNER3"),
    (0x0C, "COMPONENT1"), (0x0D, "COMPONENT2"), (0x0E, "COMPONENT3"),
    (0x0F, "DP1"), (0x10, "DP2"), (0x11, "HDMI1"), (0x12, "HDMI2"),
    (0x1B, "USB-C") ]

/-- The codes of the specification's fixed table. -/
def spec_knownCodes : List BYTE := spec_fixedTable.map Prod.fst

/-- The names of the specification's fixed table. -/
def spec_knownNames : List wstring := spec_fixedTable.map Prod.snd

/-! ## `class MonitorControl` -/

/-- The structure `PHYSICAL_MONITOR` of `physicalmonitorenumerationapi.h`. -/
structure PHYSICAL_MONITOR where
  hPhysicalMonitor : HANDLE
  szPhysicalMonitorDescription : wstring
  deriving DecidableEq, Repr

/-- The structure `MonitorControl::DisplayInfo`. -/
structure DisplayInfo where
  _hMonitor : HMONITOR
  _monitorDescription : wstring
  _physicalMonitors : List PHYSICAL_MONITOR
  deriving DecidableEq, Repr

/-- The data members of `MonitorControl`. -/
structure MonitorControl where
  _displays : List DisplayInfo
  _monitorInputTypes : MonitorInputTypes
  deriving DecidableEq, Repr

/-- One call into the DDC/CI transport, with the arguments the program passed. -/
inductive TransportCall where
  | GetVCPFeatureAndVCPFeatureReply (hMonitor : HANDLE) (bVCPCode : BYTE)
  | SetVCPFeature (hMonitor : HANDLE) (bVCPCode : BYTE) (dwNewValue : DWORD)
  deriving DecidableEq, Repr

/-- The transport functions of `Dxva2.lib`, external to the program, over a state `σ` of
the attached hardware. `GetVCPFeatureAndVCPFeatureReply` answers `none` for `FALSE` and
`some (currentValue, maximumValue)` for `TRUE` with the two reply fields it stored;
`SetVCPFeature` answers its `BOOL`. -/
structure Dxva2 (σ : Type) where
  GetVCPFeatureAndVCPFeatureReply : σ → HANDLE → BYTE → Option (DWORD × DWORD) × σ
  SetVCPFeature : σ → HANDLE → BYTE → DWORD → Bool × σ

/-- What lies outside the program: the state of the hardware and the transport calls
made so far, oldest first. -/
structure World (σ : Type) where
  host : σ
  calls : List TransportCall

namespace World

variable {σ : Type}

/-- A call of `GetVCPFeatureAndVCPFeatureReply(hMonitor, bVCPCode, NULL, &cv, &mv)`. -/
def GetVCPFeatureAndVCPFeatureReply (dxva2 : Dxva2 σ) (w : World σ)
    (hMonitor : HANDLE) (bVCPCode : BYTE) : Option (DWORD × DWORD) × World σ :=
  let r := dxva2.GetVCPFeatureAndVCPFeatureReply w.host hMonitor bVCPCode
  (r.1, { host := r.2
          calls := w.calls ++ [TransportCall.GetVCPFeatureAndVCPFeatureReply hMonitor bVCPCode] })

/-- A call of `SetVCPFeature(hMonitor, bVCPCode, dwNewValue)`. -/
def SetVCPFeature (dxva2 : Dxva2 σ) (w : World σ)
    (hMonitor : HANDLE) (bVCPCode : BYTE) (dwNewValue : DWORD) : Bool × World σ :=
  let r := dxva2.SetVCPFeature w.host hMonitor bVCPCode dwNewValue
  (r.1, { host := r.2
          calls := w.calls ++ [TransportCall.SetVCPFeature hMonitor bVCPCode dwNewValue] })

end World

/-- The function `towupper` of the C runtime in the "C" locale, which is in force since the program
never calls `setlocale`: `a`..`z` go to `A`..`Z`, every other character to itself. -/
def towupper (c : Char) : Char :=
  if 'a' ≤ c ∧ c ≤ 'z' then Char.ofNat (c.toNat - 32) else c

/-- The statement `std::transform(s.begin(), s.end(), s.begin(), ::towupper)`. -/
def transform_towupper (s : wstring) : wstring :=
  String.mk (s.data.map towupper)

namespace MonitorControl

variable {σ : Type}

/-- The method `MonitorControl::GetPhysicalMonitorHandle`. -/
def GetPhysicalMonitorHandle (self : MonitorControl) (displayIndex physicalMonitorIndex : DWORD) :
    Except wruntime_error HANDLE :=
  if h : displayIndex ≥ self._displays.length then
    .error ⟨"Invalid display index"⟩
  else
    let display := self._displays.get ⟨displayIndex, Nat.lt_of_not_le h⟩
    if h2 : physicalMonitorIndex ≥ display._physicalMonitors.length then
      .error ⟨"Invalid physical monitor index"⟩
    else
      .ok (display._physicalMonitors.get ⟨physicalMonitorIndex, Nat.lt_of_not_le h2⟩).hPhysicalMonitor

/-- The method `MonitorControl::ReadVcpByteFeature`. The result is `none` when the function returns
`FALSE` (the out-parameter `currentValue` is then not written) and `some currentValue`
when it returns `TRUE`. -/
def ReadVcpByteFeature (dxva2 : Dxva2 σ) (hPhysicalMonitor : HANDLE) (bVCPCode : BYTE)
    (w : World σ) : Option BYTE × World σ :=
  match w.GetVCPFeatureAndVCPFeatureReply dxva2 hPhysicalMonitor bVCPCode with
  | (some (cv, _), w1) => (some (cv &&& 0xFF), w1)
  | (none, w1) => (none, w1)

/-- The method `MonitorControl::GetMonitorInputCode`. The handle is resolved first (it is
an argument of the read); a `throw` there leaves the world untouched. -/
def GetMonitorInputCode (dxva2 : Dxva2 σ) (self : MonitorControl)
    (displayIndex physicalMonitorIndex : DWORD) (w : World σ) :
    Except wruntime_error BYTE × World σ :=
  match self.GetPhysicalMonitorHandle displayIndex physicalMonitorIndex with
  | .error e => (.error e, w)
  | .ok hPhysicalMonitor =>
    match ReadVcpByteFeature dxva2 hPhysicalMonitor 0x60 w with
    | (none, w1) => (.error ⟨"Error reading input code"⟩, w1)
    | (some inputCode, w1) => (.ok inputCode, w1)

/-- The method `MonitorControl::GetMonitorInputName`. -/
def GetMonitorInputName (dxva2 : Dxva2 σ) (self : MonitorControl)
    (displayIndex physicalMonitorIndex : DWORD) (w : World σ) :
    Except wruntime_error wstring × World σ :=
  match self.GetMonitorInputCode dxva2 displayIndex physicalMonitorIndex w with
  | (.error e, w1) => (.error e, w1)
  | (.ok inputCode, w1) => (.ok (self._monitorInputTypes.InputCodeToName inputCode), w1)

/-- The method `MonitorControl::SetMonitorInputByCode`. The handle is resolved first (it is
an argument of `SetVCPFeature`); a `throw` there leaves the world untouched. -/
def SetMonitorInputByCode (dxva2 : Dxva2 σ) (self : MonitorControl)
    (displayIndex physicalMonitorIndex : DWORD) (inputCode : BYTE) (w : World σ) :
    Except wruntime_error Unit × World σ :=
  match self.GetPhysicalMonitorHandle displayIndex physicalMonitorIndex with
  | .error e => (.error e, w)
  | .ok hPhysicalMonitor =>
    match w.SetVCPFeature dxva2 hPhysicalMonitor 0x60 inputCode with
    | (false, w1) => (.error ⟨"Error setting VCP feature for monitor input"⟩, w1)
    | (true, w1) => (.ok (), w1)

/-- The method `MonitorControl::SetMonitorInputByName`. -/
def SetMonitorInputByName (dxva2 : Dxva2 σ) (self : MonitorControl)
    (displayIndex physicalMonitorIndex : DWORD) (inputName : wstring) (w : World σ) :
    Except wruntime_error Unit × World σ :=
  let inputName := transform_towupper inputName
  match self._monitorInputTypes.InputNameToCode inputName with
  | .error e => (.error e, w)
  | .ok inputCode => self.SetMonitorInputByCode dxva2 displayIndex physicalMonitorIndex inputCode w

end MonitorControl

/-! ## A sample host, used to instantiate the theorems -/

/-- A sample registry: one display "DISPLAY1" with the two physical monitors
"Monitor A" (handle 100) and "Monitor B" (handle 101). -/
def sample_registry : MonitorControl :=
  { _displays := [ { _hMonitor := 7
                     _monitorDescription := "DISPLAY1"
                     _physicalMonitors := [ ⟨100, "Monitor A"⟩, ⟨101, "Monitor B"⟩ ] } ]
    _monitorInputTypes := MonitorInputTypes.ctor }

/-- A sample transport. Its state gives, for each monitor handle, the current value of
feature 0x60 (`none` for a monitor that does not answer). A get of feature 0x60 replies
with that value and the maximum 0x1200; a set of feature 0x60 stores the new value. Any
other feature is refused. -/
def sample_dxva2 : Dxva2 (HANDLE → Option DWORD) :=
  { GetVCPFeatureAndVCPFeatureReply := fun s h code =>
      if code = 0x60 then ((s h).map (fun cv => (cv, 0x1200)), s) else (none, s)
    SetVCPFeature := fun s h code v =>
      if code = 0x60 then
        match s h with
        | some _ => (true, fun h1 => if h1 = h then some v else s h1)
        | none => (false, s)
      else (false, s) }

/-- A sample world: monitor 100 is on input 0x0311 (low byte 0x11), monitor 101 on input
0x42, no other monitor answers; no transport call has been made yet. -/
def sample_world : World (HANDLE → Option DWORD) :=
  { host := fun h => if h = 100 then some 0x0311 else if h = 101 then some 0x42 else none
    calls := [] }

/-! ## Traversals -/

namespace MonitorInputTypes

/-- The method `MonitorInputTypes::VisitInputNames`. The visitor acts on a state `S`; it is
called with the key of every entry of `_inputNameToCode`, in the iteration order of that
map (ascending keys). -/
def VisitInputNames {S : Type} (self : MonitorInputTypes) (visitor : wstring → S → S)
    (s : S) : S :=
  self._inputNameToCode.foldl (fun s pair => visitor pair.1 s) s

end MonitorInputTypes

/-- The six arguments of one call of the visitor of `MonitorControl::VisitMonitors`. -/
structure MonitorVisit where
  displayIndex : DWORD
  hDisplay : HMONITOR
  displayDescription : wstring
  physicalMonitorIndex : DWORD
  hPhysicalMonitor : HANDLE
  physicalMonitorDescription : wstring
  deriving DecidableEq, Repr

namespace MonitorControl

/-- The inner loop of `VisitMonitors`, from the physical monitor that has the index
`physicalMonitorIndex` on. The visitor acts on a state `S` and may throw, which ends the
traversal. -/
def VisitMonitors_physicalMonitors {S : Type}
    (visitor : MonitorVisit → S → Except wruntime_error Unit × S)
    (displayIndex : DWORD) (display : DisplayInfo) :
    List PHYSICAL_MONITOR → DWORD → S → Except wruntime_error Unit × S
  | [], _, s => (.ok (), s)
  | physicalMonitor :: rest, physicalMonitorIndex, s =>
    match visitor
      { displayIndex := displayIndex
        hDisplay := display._hMonitor
        displayDescription := display._monitorDescription
        physicalMonitorIndex := physicalMonitorIndex
        hPhysicalMonitor := physicalMonitor.hPhysicalMonitor
        physicalMonitorDescription := physicalMonitor.szPhysicalMonitorDescription } s with
    | (.error e, s1) => (.error e, s1)
    | (.ok (), s1) =>
      VisitMonitors_physicalMonitors visitor displayIndex display rest
        (physicalMonitorIndex + 1) s1

/-- The outer loop of `VisitMonitors`, from the display that has the index `displayIndex`
on. -/
def VisitMonitors_displays {S : Type}
    (visitor : MonitorVisit → S → Except wruntime_error Unit × S) :
    List DisplayInfo → DWORD → S → Except wruntime_error Unit × S
  | [], _, s => (.ok (), s)
  | display :: rest, displayIndex, s =>
    match VisitMonitors_physicalMonitors visitor displayIndex display
      display._physicalMonitors 0 s with
    | (.error e, s1) => (.error e, s1)
    | (.ok (), s1) => VisitMonitors_displays visitor rest (displayIndex + 1) s1

/-- The method `MonitorControl::VisitMonitors`. The two `DWORD` counters are natural
numbers: they do not reach 2^32 on a registry, whose monitor counts are `DWORD` values. -/
def VisitMonitors {S : Type} (self : MonitorControl)
    (visitor : MonitorVisit → S → Except wruntime_error Unit × S) (s : S) :
    Except wruntime_error Unit × S :=
  VisitMonitors_displays visitor self._displays 0 s

end MonitorControl

/-- A visitor of input names that appends the name it is given to a list. -/
def recordName (inputName : wstring) (log : List wstring) : List wstring :=
  log ++ [inputName]

/-- A visitor of monitors that appends its arguments to a list and never throws. -/
def recordVisit (v : MonitorVisit) (log : List MonitorVisit) :
    Except wruntime_error Unit × List MonitorVisit :=
  (.ok (), log ++ [v])

/-- The visits the specification lists for the physical monitors of one display, the
first of which has the index `j0`. -/
def spec_visitsOfDisplay (i : DWORD) (display : DisplayInfo) (j0 : DWORD) :
    List MonitorVisit :=
  (display._physicalMonitors.enumFrom j0).map (fun jm =>
    { displayIndex := i
      hDisplay := display._hMonitor
      displayDescription := display._monitorDescription
      physicalMonitorIndex := jm.1
      hPhysicalMonitor := jm.2.hPhysicalMonitor
      physicalMonitorDescription := jm.2.szPhysicalMonitorDescription })

/-- The visits the specification lists for a sequence of displays, the first of which has
the index `i0`: display after display in stored order, and within each display monitor
after monitor in stored order. -/
def spec_visitsFrom (displays : List DisplayInfo) (i0 : DWORD) : List MonitorVisit :=
  (displays.enumFrom i0).flatMap (fun id => spec_visitsOfDisplay id.1 id.2 0)

/-- The visits the specification lists for a registry. -/
def spec_visits (self : MonitorControl) : List MonitorVisit :=
  spec_visitsFrom self._displays 0

/-- A visitor run on a sequence of visits in order, up to the first one at which it
throws. -/
def visitInOrder {S : Type} (visitor : MonitorVisit → S → Except wruntime_error Unit × S) :
    List MonitorVisit → S → Except wruntime_error Unit × S
  | [], s => (.ok (), s)
  | v :: rest, s =>
    match visitor v s with
    | (.error e, s1) => (.error e, s1)
    | (.ok (), s1) => visitInOrder visitor rest s1

/-! ## Discovery and teardown -/

/-- One call into the display functions of the host (`User32.lib`, `Dxva2.lib`) other than
the transport, with the arguments the program passed. -/
inductive HostCall where
  | EnumDisplayMonitors
  | GetMonitorInfo (hMonitor : HMONITOR)
  | GetNumberOfPhysicalMonitorsFromHMONITOR (hMonitor : HMONITOR)
  | GetPhysicalMonitorsFromHMONITOR (hMonitor : HMONITOR) (dwPhysicalMonitorArraySize : DWORD)
  | DestroyPhysicalMonitors (dwPhysicalMonitorArraySize : DWORD)
      (pPhysicalMonitorArray : List PHYSICAL_MONITOR)
  deriving DecidableEq, Repr

/-- The physical-monitor handles a host call releases. -/
def HostCall.released : HostCall → List HANDLE
  | .DestroyPhysicalMonitors n array => (array.take n).map (fun pm => pm.hPhysicalMonitor)
  | _ => []

/-- The host functions the program calls, external to it, over a state `σ` of the
attached hardware; the transport functions are those of `Dxva2`.
`EnumDisplayMonitors` gives the display handles for which it invokes the callback, in its
order, and the `BOOL` it returns when no callback throws. `GetMonitorInfo` answers `none`
for `FALSE` and the `szDevice` it stored for `TRUE`. The two physical-monitor queries
answer `none` for `FALSE`, and for `TRUE` the count, respectively the array entries,
they stored. -/
structure Win32 (σ : Type) extends Dxva2 σ where
  EnumDisplayMonitors : σ → List HMONITOR × Bool
  GetMonitorInfo : σ → HMONITOR → Option wstring × σ
  GetNumberOfPhysicalMonitorsFromHMONITOR : σ → HMONITOR → Option DWORD × σ
  GetPhysicalMonitorsFromHMONITOR : σ → HMONITOR → DWORD → Option (List PHYSICAL_MONITOR) × σ
  DestroyPhysicalMonitors : σ → DWORD → List PHYSICAL_MONITOR → Bool × σ

/-- The surroundings of the running program: the world of the transport, the other host
calls made so far (oldest first), and the characters written to `std::wcout`. -/
structure Process (σ : Type) where
  world : World σ
  hostCalls : List HostCall
  wcout : wstring

namespace Process

variable {σ : Type}

/-- A call of `GetMonitorInfo(hMonitor, &monitorInfo)`. -/
def GetMonitorInfo (win32 : Win32 σ) (p : Process σ) (hMonitor : HMONITOR) :
    Option wstring × Process σ :=
  let r := win32.GetMonitorInfo p.world.host hMonitor
  (r.1, { p with world := { p.world with host := r.2 }
                 hostCalls := p.hostCalls ++ [HostCall.GetMonitorInfo hMonitor] })

/-- A call of `GetNumberOfPhysicalMonitorsFromHMONITOR(hMonitor, &numPhysicalMonitors)`. -/
def GetNumberOfPhysicalMonitorsFromHMONITOR (win32 : Win32 σ) (p : Process σ)
    (hMonitor : HMONITOR) : Option DWORD × Process σ :=
  let r := win32.GetNumberOfPhysicalMonitorsFromHMONITOR p.world.host hMonitor
  (r.1, { p with world := { p.world with host := r.2 }
                 hostCalls := p.hostCalls ++
                   [HostCall.GetNumberOfPhysicalMonitorsFromHMONITOR hMonitor] })

/-- A call of `GetPhysicalMonitorsFromHMONITOR(hMonitor, size, array)`. -/
def GetPhysicalMonitorsFromHMONITOR (win32 : Win32 σ) (p : Process σ)
    (hMonitor : HMONITOR) (dwPhysicalMonitorArraySize : DWORD) :
    Option (List PHYSICAL_MONITOR) × Process σ :=
  let r := win32.GetPhysicalMonitorsFromHMONITOR p.world.host hMonitor dwPhysicalMonitorArraySize
  (r.1, { p with world := { p.world with host := r.2 }
                 hostCalls := p.hostCalls ++
                   [HostCall.GetPhysicalMonitorsFromHMONITOR hMonitor dwPhysicalMonitorArraySize] })

/-- A call of `DestroyPhysicalMonitors(size, array)`. -/
def DestroyPhysicalMonitors (win32 : Win32 σ) (p : Process σ)
    (dwPhysicalMonitorArraySize : DWORD) (pPhysicalMonitorArray : List PHYSICAL_MONITOR) :
    Bool × Process σ :=
  let r := win32.DestroyPhysicalMonitors p.world.host dwPhysicalMonitorArraySize
    pPhysicalMonitorArray
  (r.1, { p with world := { p.world with host := r.2 }
                 hostCalls := p.hostCalls ++
                   [HostCall.DestroyPhysicalMonitors dwPhysicalMonitorArraySize
                     pPhysicalMonitorArray] })

/-- The statement `std::wcout << text`. -/
def print (p : Process σ) (text : wstring) : Process σ :=
  { p with wcout := p.wcout ++ text }

end Process

namespace MonitorControl

variable {σ : Type}

/-- The vector `_physicalMonitors` after `resize(numPhysicalMonitors)` on the empty vector
and the host's writing `array` into its storage: `numPhysicalMonitors` entries, those the
host did not write being value-initialised. -/
def resize_and_fill (numPhysicalMonitors : DWORD) (array : List PHYSICAL_MONITOR) :
    List PHYSICAL_MONITOR :=
  (List.range numPhysicalMonitors).map (fun i => array.getD i ⟨0, ""⟩)

/-- The callback `MonitorControl::MonitorEnumProc` for one display: `displays` is
`pThis->_displays` before the call, the result is that member after it (the callback
then returns `TRUE`), or the exception it throws. -/
def MonitorEnumProc (win32 : Win32 σ) (hMonitor : HMONITOR) (displays : List DisplayInfo)
    (p : Process σ) : Except wruntime_error (List DisplayInfo) × Process σ :=
  match p.GetMonitorInfo win32 hMonitor with
  | (none, p1) => (.error ⟨"Error getting monitor info"⟩, p1)
  | (some szDevice, p1) =>
    match p1.GetNumberOfPhysicalMonitorsFromHMONITOR win32 hMonitor with
    | (none, p2) => (.error ⟨"Error getting the number of physical monitors"⟩, p2)
    | (some numPhysicalMonitors, p2) =>
      match p2.GetPhysicalMonitorsFromHMONITOR win32 hMonitor numPhysicalMonitors with
      | (none, p3) => (.error ⟨"Error getting the physical monitors"⟩, p3)
      | (some array, p3) =>
        (.ok (displays ++
          [ { _hMonitor := hMonitor
              _monitorDescription := szDevice
              _physicalMonitors := resize_and_fill numPhysicalMonitors array } ]), p3)

/-- The callbacks `EnumDisplayMonitors` makes, one per display handle in its order; an
exception thrown by a callback leaves the enumeration. -/
def EnumDisplayMonitors_callbacks (win32 : Win32 σ) :
    List HMONITOR → List DisplayInfo → Process σ →
      Except wruntime_error (List DisplayInfo) × Process σ
  | [], displays, p => (.ok displays, p)
  | hMonitor :: rest, displays, p =>
    match MonitorEnumProc win32 hMonitor displays p with
    | (.error e, p1) => (.error e, p1)
    | (.ok displays1, p1) => EnumDisplayMonitors_callbacks win32 rest displays1 p1

/-- The constructor `MonitorControl::MonitorControl()`: the members are default-constructed
and `EnumDisplayMonitors` is called with `MonitorEnumProc`; the `BOOL` it returns is not
looked at. An exception of a callback leaves the constructor, and no object exists then. -/
def ctor (win32 : Win32 σ) (p : Process σ) : Except wruntime_error MonitorControl × Process σ :=
  let enumeration := win32.EnumDisplayMonitors p.world.host
  match EnumDisplayMonitors_callbacks win32 enumeration.1 []
      { p with hostCalls := p.hostCalls ++ [HostCall.EnumDisplayMonitors] } with
  | (.error e, p1) => (.error e, p1)
  | (.ok displays, p1) =>
    (.ok { _displays := displays, _monitorInputTypes := MonitorInputTypes.ctor }, p1)

/-- The destructor `MonitorControl::~MonitorControl()`. -/
def dtor (win32 : Win32 σ) (self : MonitorControl) (p : Process σ) : Process σ :=
  self._displays.foldl (fun p display =>
    if display._physicalMonitors.length > 0 then
      (p.DestroyPhysicalMonitors win32 display._physicalMonitors.length
        display._physicalMonitors).2
    else p) p

end MonitorControl

/-- A sample host around the sample transport: it enumerates the one display 7, named
"DISPLAY1", with the two physical monitors 100 "Monitor A" and 101 "Monitor B"; every
query about another display fails. -/
def sample_win32 : Win32 (HANDLE → Option DWORD) :=
  { toDxva2 := sample_dxva2
    EnumDisplayMonitors := fun _ => ([7], true)
    GetMonitorInfo := fun s h => (if h = 7 then some "DISPLAY1" else none, s)
    GetNumberOfPhysicalMonitorsFromHMONITOR := fun s h => (if h = 7 then some 2 else none, s)
    GetPhysicalMonitorsFromHMONITOR := fun s h n =>
      (if h = 7 ∧ n = 2 then some [⟨100, "Monitor A"⟩, ⟨101, "Monitor B"⟩] else none, s)
    DestroyPhysicalMonitors := fun s _ _ => (true, s) }

/-- A sample process on the sample world: no host call made, nothing written yet. -/
def sample_process : Process (HANDLE → Option DWORD) :=
  { world := sample_world, hostCalls := [], wcout := "" }

/-- A visitor of monitors over a state `S`, made to also append its arguments to a trace
before it runs. -/
def traced {S : Type} (visitor : MonitorVisit → S → Except wruntime_error Unit × S)
    (v : MonitorVisit) (st : S × List MonitorVisit) :
    Except wruntime_error Unit × (S × List MonitorVisit) :=
  ((visitor v st.1).1, ((visitor v st.1).2, st.2 ++ [v]))

/-- A visitor of monitors that reads the input code of the monitor it is given, through
`GetMonitorInputCode`, and throws what that call throws. -/
def readingVisitor {σ : Type} (dxva2 : Dxva2 σ) (mc : MonitorControl) (v : MonitorVisit)
    (w : World σ) : Except wruntime_error Unit × World σ :=
  match mc.GetMonitorInputCode dxva2 v.displayIndex v.physicalMonitorIndex w with
  | (.error e, w1) => (.error e, w1)
  | (.ok _, w1) => (.ok (), w1)

/-- A sample host as `sample_win32`, except that `EnumDisplayMonitors` reports failure
(returns `FALSE`) after it has invoked the callback for display 7. -/
def sample_win32_enumeration_fails : Win32 (HANDLE → Option DWORD) :=
  { sample_win32 with EnumDisplayMonitors := fun _ => ([7], false) }

/-! ## The command line: `ParseArgs`, `PrintUsage`, `wmain` -/

/-- The exceptions that occur in the program: `wruntime_error`, and the two that
`std::stoi` throws, which are not derived from it. -/
inductive Exception where
  | wruntime_error (e : wruntime_error)
  | invalid_argument (what : String)
  | out_of_range (what : String)
  deriving DecidableEq, Repr

/-- The value of an `int` expression whose mathematical value is `x`: 32-bit two's
complement, wrapping around on overflow. -/
def int_wrap (x : Int) : Int :=
  (x + 2 ^ 31) % 2 ^ 32 - 2 ^ 31

/-- The function `iswspace` in the "C" locale. -/
def iswspace (c : Char) : Bool :=
  c = ' ' || c = '\t' || c = '\n' || c = '\x0b' || c = '\x0c' || c = '\r'

/-- The function `std::stoi(const std::wstring&)` in base 10, as the C++ standard defines
it through `wcstol`: leading white space is skipped, an optional sign and then the longest
run of decimal digits are read, what follows is ignored; `std::invalid_argument` when no
digit is read, `std::out_of_range` when the value is not an `int` (`long` has 32 bits
too on the program's platform). -/
def stoi (str : wstring) : Except Exception Int :=
  let s := str.data.dropWhile iswspace
  let negative := s.head? = some '-'
  let s1 := if s.head? = some '-' ∨ s.head? = some '+' then s.tail else s
  let digits := s1.takeWhile Char.isDigit
  if digits = [] then .error (.invalid_argument "invalid stoi argument")
  else
    let magnitude : Nat := digits.foldl (fun acc c => 10 * acc + (c.toNat - '0'.toNat)) 0
    let value : Int := if negative then - (magnitude : Int) else (magnitude : Int)
    if value < - 2 ^ 31 ∨ 2 ^ 31 - 1 < value then
      .error (.out_of_range "stoi argument out of range")
    else .ok value

/-- The structure `CmdLineArgs`. -/
structure CmdLineArgs where
  _listMonitors : Bool
  _setInput : Bool
  _inputName : wstring
  _displayIndex : DWORD
  _physicalMonitorIndex : DWORD
  deriving DecidableEq, Repr

/-- The value-initialised `CmdLineArgs` (the statement `args = {}`). -/
def CmdLineArgs.ctor : CmdLineArgs :=
  { _listMonitors := false, _setInput := false, _inputName := "",
    _displayIndex := 0, _physicalMonitorIndex := 0 }

/-- The loop of `ParseArgs` from `argv[i]` on: the list holds `argv[i]`, ..., `argv[argc-1]`.
The result is `args` after the loop, or the exception that leaves `ParseArgs`. -/
def ParseArgs_loop : List wstring → CmdLineArgs → Except Exception CmdLineArgs
  | [], args => .ok args
  | arg :: rest, args =>
    if arg = "-l" then
      ParseArgs_loop rest { args with _listMonitors := true }
    else if arg = "-i" then
      match rest with
      | value :: rest1 =>
        ParseArgs_loop rest1 { args with _inputName := value, _setInput := true }
      | [] => .error (.wruntime_error ⟨"Missing argument to -i"⟩)
    else if arg = "-d" then
      match rest with
      | value :: rest1 =>
        match stoi value with
        | .error e => .error e
        | .ok n =>
          let displayIndex : Int := int_wrap (n - 1)
          if displayIndex < 0 then .error (.wruntime_error ⟨"Invalid display index"⟩)
          else ParseArgs_loop rest1 { args with _displayIndex := displayIndex.toNat }
      | [] => .error (.wruntime_error ⟨"Missing argument to -d"⟩)
    else if arg = "-m" then
      match rest with
      | value :: rest1 =>
        match stoi value with
        | .error e => .error e
        | .ok n =>
          let physicalMonitorIndex : Int := int_wrap (n - 1)
          if physicalMonitorIndex < 0 then
            .error (.wruntime_error ⟨"Invalid monitor index"⟩)
          else
            ParseArgs_loop rest1 { args with _physicalMonitorIndex := physicalMonitorIndex.toNat }
      | [] => .error (.wruntime_error ⟨"Missing argument to -m"⟩)
    else .error (.wruntime_error ⟨"Unknown argument: " ++ arg⟩)

/-- The function `ParseArgs(argc, argv, args)`, with `argc` the length of `argv`: the loop
starts at `argv[1]`. -/
def ParseArgs (argv : List wstring) : Except Exception CmdLineArgs :=
  ParseArgs_loop (argv.drop 1) CmdLineArgs.ctor

/-- The function `PrintUsage`; `std::endl` writes a line feed. -/
def PrintUsage {σ : Type} (progName : wstring) (p : Process σ) : Process σ :=
  let p1 := p.print ("Usage: " ++ progName ++ " [options]" ++ "\n")
  let p2 := p1.print ("Options:" ++ "\n")
  let p3 := p2.print ("  -l: List all physical monitors" ++ "\n")
  let p4 := p3.print
    ("  -i input_name: Set monitor input (see list of valid inputs below)" ++ "\n")
  let p5 := p4.print ("  -d display_index: Index of the display (default: 1)" ++ "\n")
  let p6 := p5.print
    ("  -m monitor_index: Physical monitor index for the specified display (default: 1)"
      ++ "\n")
  let p7 := p6.print ("  -s : Show list of valid input names" ++ "\n")
  let p8 := p7.print "\n"
  let p9 := p8.print ("Input names:" ++ "\n")
  MonitorInputTypes.ctor.VisitInputNames
    (fun inputName q => q.print ("  " ++ inputName ++ "\n")) p9

/-- The line `wmain` writes for one listed monitor, once the name of its input is known. -/
def listLine (v : MonitorVisit) (inputName : wstring) : wstring :=
  "  " ++ v.displayDescription ++ "\\MONITOR" ++ toString (v.physicalMonitorIndex + 1)
    ++ ": \"" ++ v.physicalMonitorDescription ++ "\" on input: " ++ inputName ++ "\n"

/-- The visitor `wmain` passes to `VisitMonitors` for the option `-l`. The operands of the
chain of `<<` are taken from left to right, so the head of the line is written before
`GetMonitorInputName` is called; the name and `std::endl` follow when that call returns. -/
def wmain_visitor {σ : Type} (win32 : Win32 σ) (mc : MonitorControl) (v : MonitorVisit)
    (p : Process σ) : Except wruntime_error Unit × Process σ :=
  let p1 := p.print ("  " ++ v.displayDescription ++ "\\MONITOR"
    ++ toString (v.physicalMonitorIndex + 1) ++ ": \"" ++ v.physicalMonitorDescription
    ++ "\" on input: ")
  match mc.GetMonitorInputName win32.toDxva2 v.displayIndex v.physicalMonitorIndex p1.world with
  | (.error e, w1) => (.error e, { p1 with world := w1 })
  | (.ok inputName, w1) => (.ok (), { p1 with world := w1 }.print (inputName ++ "\n"))

/-- How the process ends: `wmain` returns a code, or an exception that no handler of
`wmain` matches leaves it and `std::terminate` is called. -/
inductive Exit where
  | returned (code : Int)
  | terminate (e : Exception)
  deriving DecidableEq, Repr

/-- The handler `catch (wruntime_error e)` of `wmain`. -/
def wmain_catch {σ : Type} (e : wruntime_error) (p : Process σ) : Exit × Process σ :=
  (Exit.returned 1, p.print (e.wide_message ++ "\n"))

/-- The statement `if (args._listMonitors) { ... mc.VisitMonitors(visitor); }` of `wmain`. -/
def wmain_list {σ : Type} (win32 : Win32 σ) (mc : MonitorControl) (args : CmdLineArgs)
    (p : Process σ) : Except wruntime_error Unit × Process σ :=
  if args._listMonitors then
    mc.VisitMonitors (wmain_visitor win32 mc) (p.print ("Monitors: " ++ "\n"))
  else (.ok (), p)

/-- The statement `if (args._setInput) { mc.SetMonitorInputByName(...); }` of `wmain`. -/
def wmain_set {σ : Type} (win32 : Win32 σ) (mc : MonitorControl) (args : CmdLineArgs)
    (p : Process σ) : Except wruntime_error Unit × Process σ :=
  if args._setInput then
    match mc.SetMonitorInputByName win32.toDxva2 args._displayIndex
      args._physicalMonitorIndex args._inputName p.world with
    | (r, w1) => (r, { p with world := w1 })
  else (.ok (), p)

/-- The function `wmain(argc, argv)`, with `argc` the length of `argv`. The registry `mc`
is destroyed when the `try` block is left, normally or by an exception thrown after its
construction, before the handler runs. -/
def wmain {σ : Type} (win32 : Win32 σ) (argv : List wstring) (p : Process σ) :
    Exit × Process σ :=
  if argv.length < 2 then
    (Exit.returned 0, PrintUsage (argv.headD "") p)
  else
    match ParseArgs argv with
    | .error (.wruntime_error e) => wmain_catch e p
    | .error e => (Exit.terminate e, p)
    | .ok args =>
      match MonitorControl.ctor win32 p with
      | (.error e, p1) => wmain_catch e p1
      | (.ok mc, p1) =>
        match wmain_list win32 mc args p1 with
        | (.error e, p2) => wmain_catch e (mc.dtor win32 p2)
        | (.ok (), p2) =>
          match wmain_set win32 mc args p2 with
          | (.error e, p3) => wmain_catch e (mc.dtor win32 p3)
          | (.ok (), p3) => (Exit.returned 0, mc.dtor win32 p3)

/-! ## The options of the command line, as the usage text lists them -/

/-- One option of the command line with its value: `-l`, `-i input_name`,
`-d display_index`, `-m monitor_index`. -/
inductive CmdOption where
  | l
  | i (input_name : wstring)
  | d (display_index : wstring)
  | m (monitor_index : wstring)
  deriving DecidableEq, Repr

/-- The arguments that spell an option. -/
def CmdOption.toArgs : CmdOption → List wstring
  | .l => ["-l"]
  | .i input_name => ["-i", input_name]
  | .d display_index => ["-d", display_index]
  | .m monitor_index => ["-m", monitor_index]

/-- The value of a `-d` option. -/
def CmdOption.dValue : CmdOption → Option wstring
  | .d display_index => some display_index
  | _ => none

/-- The value of a `-m` option. -/
def CmdOption.mValue : CmdOption → Option wstring
  | .m monitor_index => some monitor_index
  | _ => none

/-- The value of a `-i` option. -/
def CmdOption.iValue : CmdOption → Option wstring
  | .i input_name => some input_name
  | _ => none

/-- The value of the last `-d` option of a sequence of options, if it has one. -/
def spec_lastD (opts : List CmdOption) : Option wstring :=
  (opts.filterMap CmdOption.dValue).getLast?

/-- The value of the last `-m` option of a sequence of options, if it has one. -/
def spec_lastM (opts : List CmdOption) : Option wstring :=
  (opts.filterMap CmdOption.mValue).getLast?

/-- The value of the last `-i` option of a sequence of options, if it has one. -/
def spec_lastI (opts : List CmdOption) : Option wstring :=
  (opts.filterMap CmdOption.iValue).getLast?

/-- The line the specification gives for one listed monitor (without the line feed). -/
def spec_listLine (v : MonitorVisit) (inputName : wstring) : wstring :=
  v.displayDescription ++ "\\MONITOR" ++ toString (v.physicalMonitorIndex + 1)
    ++ ": \"" ++ v.physicalMonitorDescription ++ "\" on input: " ++ inputName

/-- What the loop of `ParseArgs` leaves in an index field that held `before`, for options
whose last value for that field is `last`: the field as it was when there is no such
option, and otherwise the `int` value of `std::stoi(value) - 1`, which is not negative. -/
def indexAfter (last : Option wstring) (before after : DWORD) : Prop :=
  match last with
  | none => after = before
  | some s => ∃ v : Int, stoi s = .ok v ∧ 0 ≤ int_wrap (v - 1) ∧ (after : Int) = int_wrap (v - 1)

/-- What the loop of `ParseArgs` leaves in `_inputName` and `_setInput`, for options whose
last `-i` value is `last`. -/
def inputAfter (last : Option wstring) (before after : CmdLineArgs) : Prop :=
  match last with
  | none => after._inputName = before._inputName ∧ after._setInput = before._setInput
  | some name => after._inputName = name ∧ after._setInput = true

end SwitchMonitorInput

/-! ## Lemmas on `std::map` and on the two tables -/

namespace SwitchMonitorInput

theorem std_map.mem_of_find {K V : Type} (less : K → K → Bool)
    (total : ∀ a b, less a b = false → less b a = false → a = b)
    (m : List (K × V)) (key : K) (v : V) (h : std_map.find less m key = some v) :
    (key, v) ∈ m := by
  induction m with
  | nil => simp [std_map.find] at h
  | cons p rest ih =>
    obtain ⟨k, v0⟩ := p
    unfold std_map.find at h
    by_cases h1 : less key k = true
    · simp [h1] at h
    · by_cases h2 : less k key = true
      · simp only [h1, h2, if_true, if_false] at h
        exact List.mem_cons_of_mem _ (ih h)
      · simp only [h1, h2, if_false] at h
        have hk : key = k := total key k (by simpa using h1) (by simpa using h2)
        have hv : v0 = v := by simpa using h
        subst hk; subst hv
        exact List.mem_cons_self _ _

theorem less_BYTE_total (a b : BYTE) (h1 : less_BYTE a b = false) (h2 : less_BYTE b a = false) :
    a = b := by
  simp only [less_BYTE, decide_eq_false_iff_not] at h1 h2
  exact Nat.le_antisymm (Nat.le_of_not_lt h2) (Nat.le_of_not_lt h1)

theorem less_wstring_total (a b : wstring) (h1 : less_wstring a b = false)
    (h2 : less_wstring b a = false) : a = b := by
  simp only [less_wstring, decide_eq_false_iff_not] at h1 h2
  rcases lt_trichotomy a.data b.data with h | h | h
  · exact absurd h h1
  · exact String.ext h
  · exact absurd h h2

namespace MonitorInputTypes

theorem ctor_inputCodeToName_eq : ctor._inputCodeToName = spec_fixedTable := by decide

theorem ctor_inputNameToCode_eq :
    ctor._inputNameToCode =
      [ ("COMPONENT1", 12), ("COMPONENT2", 13), ("COMPONENT3", 14), ("COMPOSITE1", 5),
        ("COMPOSITE2", 6), ("DP1", 15), ("DP2", 16), ("DVI1", 3), ("DVI2", 4), ("HDMI1", 17),
        ("HDMI2", 18), ("RGB1", 1), ("RGB2", 2), ("SVIDEO1", 7), ("SVIDEO2", 8), ("TUNER1", 9),
        ("TUNER2", 10), ("TUNER3", 11), ("USB-C", 27) ] := by decide

theorem find_inputCodeToName_of_mem :
    ∀ p ∈ ctor._inputCodeToName, std_map.find less_BYTE ctor._inputCodeToName p.1 = some p.2 := by
  decide

theorem find_inputNameToCode_of_mem :
    ∀ p ∈ ctor._inputNameToCode,
      std_map.find less_wstring ctor._inputNameToCode p.1 = some p.2 := by
  decide

theorem find_inputCodeToName_iff (c : BYTE) (v : wstring) :
    std_map.find less_BYTE ctor._inputCodeToName c = some v ↔ (c, v) ∈ spec_fixedTable := by
  constructor
  · intro h
    rw [← ctor_inputCodeToName_eq]
    exact std_map.mem_of_find less_BYTE less_BYTE_total _ _ _ h
  · intro h
    rw [← ctor_inputCodeToName_eq] at h
    exact find_inputCodeToName_of_mem (c, v) h

theorem find_inputNameToCode_iff (n : wstring) (c : BYTE) :
    std_map.find less_wstring ctor._inputNameToCode n = some c ↔
      (n, c) ∈ ctor._inputNameToCode := by
  constructor
  · intro h
    exact std_map.mem_of_find less_wstring less_wstring_total _ _ _ h
  · intro h
    exact find_inputNameToCode_of_mem (n, c) h

theorem swap_mem_of_mem_inputNameToCode :
    ∀ p ∈ ctor._inputNameToCode, (p.2, p.1) ∈ spec_fixedTable := by
  decide

theorem swap_mem_inputNameToCode_of_mem :
    ∀ p ∈ spec_fixedTable, (p.2, p.1) ∈ ctor._inputNameToCode := by
  decide

theorem mem_inputNameToCode_iff (n : wstring) (c : BYTE) :
    (n, c) ∈ ctor._inputNameToCode ↔ (c, n) ∈ spec_fixedTable :=
  ⟨fun h => swap_mem_of_mem_inputNameToCode (n, c) h,
   fun h => swap_mem_inputNameToCode_of_mem (c, n) h⟩

theorem InputNameToCode_eq_ok_iff (n : wstring) (c : BYTE) :
    ctor.InputNameToCode n = .ok c ↔ (c, n) ∈ spec_fixedTable := by
  rw [← mem_inputNameToCode_iff, ← find_inputNameToCode_iff]
  unfold InputNameToCode
  cases std_map.find less_wstring ctor._inputNameToCode n <;> simp

theorem InputNameToCode_eq_error_iff (n : wstring) (e : wruntime_error) :
    ctor.InputNameToCode n = .error e ↔ (e = ⟨"Invalid input name"⟩ ∧ n ∉ spec_knownNames) := by
  have key : ∀ c, std_map.find less_wstring ctor._inputNameToCode n = some c ↔
      (c, n) ∈ spec_fixedTable := fun c => by
    rw [find_inputNameToCode_iff, mem_inputNameToCode_iff]
  unfold InputNameToCode
  cases hf : std_map.find less_wstring ctor._inputNameToCode n with
  | none =>
    have hn : n ∉ spec_knownNames := by
      intro hmem
      obtain ⟨p, hp, hpn⟩ := List.mem_map.1 hmem
      have := (key p.1).2 (by rw [← hpn]; exact hp)
      rw [hf] at this
      exact Option.noConfusion this
    simp only [Except.error.injEq]
    constructor
    · intro h; exact ⟨h.symm, hn⟩
    · intro h; exact h.1.symm
  | some c =>
    have hmem : n ∈ spec_knownNames := List.mem_map.2 ⟨(c, n), (key c).1 hf, rfl⟩
    simp [hmem]

theorem InputCodeToName_of_mem (c : BYTE) (n : wstring) (h : (c, n) ∈ spec_fixedTable) :
    ctor.InputCodeToName c = n := by
  unfold InputCodeToName
  rw [(find_inputCodeToName_iff c n).2 h]

theorem InputCodeToName_of_not_mem (c : BYTE) (h : c ∉ spec_knownCodes) :
    ctor.InputCodeToName c = "UNKNOWN" := by
  unfold InputCodeToName
  cases hf : std_map.find less_BYTE ctor._inputCodeToName c with
  | none => rfl
  | some v =>
    exact absurd (List.mem_map.2 ⟨(c, v), (find_inputCodeToName_iff c v).1 hf, rfl⟩) h

theorem lookup_spec_fixedTable_of_mem :
    ∀ p ∈ spec_fixedTable, (spec_fixedTable.lookup p.1).getD "UNKNOWN" = p.2 := by
  decide

theorem lookup_eq_none_of_not_mem (l : List (BYTE × wstring)) (c : BYTE)
    (h : c ∉ l.map Prod.fst) : l.lookup c = none := by
  induction l with
  | nil => rfl
  | cons p rest ih =>
    obtain ⟨k, v⟩ := p
    simp only [List.map_cons, List.mem_cons, not_or] at h
    have hk : (c == k) = false := by simpa using h.1
    simp only [List.lookup, hk]
    exact ih h.2

end MonitorInputTypes

/-! ## The input-code registry (claims C1 to C4) -/

open MonitorInputTypes

/-- C1: for every code `c` of the fixed table (the 19 codes 0x01..0x12 and 0x1B),
`InputNameToCode (InputCodeToName c)` succeeds and returns `c`. -/
theorem C1_InputNameToCode_InputCodeToName (c : BYTE) (h : c ∈ spec_knownCodes) :
    spec_knownCodes = [1, 2, 3, 4, 5, 6, 7, 8, 9, 10, 11, 12, 13, 14, 15, 16, 17, 18, 0x1B] ∧
    ctor.InputNameToCode (ctor.InputCodeToName c) = .ok c := by
  refine ⟨by decide, ?_⟩
  obtain ⟨p, hp, hpc⟩ := List.mem_map.1 h
  obtain ⟨c0, n⟩ := p
  simp only at hpc
  subst hpc
  rw [InputCodeToName_of_mem c0 n hp]
  exact (InputNameToCode_eq_ok_iff n c0).2 hp

/-- Witness of C1 at the code 0x11. -/
theorem C1_InputNameToCode_InputCodeToName_witness :
    (0x11 : BYTE) ∈ spec_knownCodes ∧
    spec_knownCodes = [1, 2, 3, 4, 5, 6, 7, 8, 9, 10, 11, 12, 13, 14, 15, 16, 17, 18, 0x1B] ∧
    ctor.InputNameToCode (ctor.InputCodeToName 0x11) = .ok 0x11 :=
  ⟨by decide, C1_InputNameToCode_InputCodeToName 0x11 (by decide)⟩

/-- C2: `InputCodeToName` is total; for every code it returns the name the fixed table
lists for it when the table has the code, and "UNKNOWN" otherwise. In particular
0x0F gives "DP1", 0x11 gives "HDMI1", 0x1B gives "USB-C". -/
theorem C2_InputCodeToName_table :
    (∀ c : BYTE, ctor.InputCodeToName c = (spec_fixedTable.lookup c).getD "UNKNOWN") ∧
    spec_fixedTable.length = 19 ∧
    ctor.InputCodeToName 0x0F = "DP1" ∧
    ctor.InputCodeToName 0x11 = "HDMI1" ∧
    ctor.InputCodeToName 0x1B = "USB-C" ∧
    ctor.InputCodeToName 0x00 = "UNKNOWN" ∧
    ctor.InputCodeToName 0x13 = "UNKNOWN" ∧
    ctor.InputCodeToName 0xFF = "UNKNOWN" := by
  refine ⟨?_, by decide, by decide, by decide, by decide, by decide, by decide, by decide⟩
  intro c
  by_cases h : c ∈ spec_knownCodes
  · obtain ⟨p, hp, hpc⟩ := List.mem_map.1 h
    obtain ⟨c0, n⟩ := p
    simp only at hpc
    subst hpc
    rw [InputCodeToName_of_mem c0 n hp]
    exact (lookup_spec_fixedTable_of_mem (c0, n) hp).symm
  · rw [InputCodeToName_of_not_mem c h, lookup_eq_none_of_not_mem spec_fixedTable c h]
    rfl

/-- C3: `InputNameToCode n` fails, with the message "Invalid input name", exactly when
`n` is not (case-sensitively) one of the 19 names of the fixed table; "hdmi1" and
"UNKNOWN" are both rejected. -/
theorem C3_InputNameToCode_fails_iff :
    (∀ n : wstring,
      (ctor.InputNameToCode n = .error ⟨"Invalid input name"⟩ ↔ n ∉ spec_knownNames) ∧
      ((∃ e, ctor.InputNameToCode n = .error e) ↔ n ∉ spec_knownNames) ∧
      ((∃ c, ctor.InputNameToCode n = .ok c) ↔ n ∈ spec_knownNames)) ∧
    spec_knownNames =
      [ "RGB1", "RGB2", "DVI1", "DVI2", "COMPOSITE1", "COMPOSITE2", "SVIDEO1", "SVIDEO2",
        "TUNER1", "TUNER2", "TUNER3", "COMPONENT1", "COMPONENT2", "COMPONENT3",
        "DP1", "DP2", "HDMI1", "HDMI2", "USB-C" ] ∧
    ctor.InputNameToCode "hdmi1" = .error ⟨"Invalid input name"⟩ ∧
    ctor.InputNameToCode "UNKNOWN" = .error ⟨"Invalid input name"⟩ := by
  refine ⟨fun n => ⟨?_, ?_, ?_⟩, by decide, ?_, ?_⟩
  · rw [InputNameToCode_eq_error_iff]
    exact ⟨fun h => h.2, fun h => ⟨rfl, h⟩⟩
  · constructor
    · rintro ⟨e, he⟩
      exact ((InputNameToCode_eq_error_iff n e).1 he).2
    · intro h
      exact ⟨_, (InputNameToCode_eq_error_iff n _).2 ⟨rfl, h⟩⟩
  · constructor
    · rintro ⟨c, hc⟩
      exact List.mem_map.2 ⟨(c, n), (InputNameToCode_eq_ok_iff n c).1 hc, rfl⟩
    · intro h
      obtain ⟨p, hp, hpn⟩ := List.mem_map.1 h
      exact ⟨p.1, (InputNameToCode_eq_ok_iff n p.1).2 (by rw [← hpn]; exact hp)⟩
  · exact (InputNameToCode_eq_error_iff _ _).2 ⟨rfl, by decide⟩
  · exact (InputNameToCode_eq_error_iff _ _).2 ⟨rfl, by decide⟩

/-- C4: the two maps built by the constructor are inverse to each other: whenever
`InputNameToCode n` succeeds with code `c`, `InputCodeToName c` is `n`; the name-to-code
map has exactly 19 entries, as many as the code-to-name map, whose names are pairwise
distinct (so building the reverse map overwrites nothing). -/
theorem C4_maps_inverse (n : wstring) (c : BYTE) (h : ctor.InputNameToCode n = .ok c) :
    ctor.InputCodeToName c = n ∧
    ctor._inputNameToCode.length = 19 ∧
    ctor._inputCodeToName.length = 19 ∧
    (ctor._inputCodeToName.map Prod.snd).Nodup ∧
    (ctor._inputNameToCode.map Prod.fst).Nodup := by
  refine ⟨?_, by decide, by decide, by decide, by decide⟩
  exact InputCodeToName_of_mem c n ((InputNameToCode_eq_ok_iff n c).1 h)

/-- Witness of C4 at the name "USB-C", whose code is 0x1B. -/
theorem C4_maps_inverse_witness :
    ctor.InputNameToCode "USB-C" = .ok 0x1B ∧
    ctor.InputCodeToName 0x1B = "USB-C" ∧
    ctor._inputNameToCode.length = 19 ∧
    ctor._inputCodeToName.length = 19 ∧
    (ctor._inputCodeToName.map Prod.snd).Nodup ∧
    (ctor._inputNameToCode.map Prod.fst).Nodup :=
  ⟨rfl, C4_maps_inverse "USB-C" 0x1B rfl⟩

/-! ## Lemmas on `MonitorControl` -/

namespace MonitorControl

theorem GetPhysicalMonitorHandle_ok (mc : MonitorControl) (d m : DWORD)
    (display : DisplayInfo) (pm : PHYSICAL_MONITOR)
    (hd : mc._displays[d]? = some display) (hm : display._physicalMonitors[m]? = some pm) :
    mc.GetPhysicalMonitorHandle d m = .ok pm.hPhysicalMonitor := by
  obtain ⟨hd1, hd2⟩ := List.getElem?_eq_some_iff.1 hd
  unfold GetPhysicalMonitorHandle
  rw [dif_neg (Nat.not_le_of_lt hd1)]
  simp only [List.get_eq_getElem, hd2]
  obtain ⟨hm1, hm2⟩ := List.getElem?_eq_some_iff.1 hm
  rw [dif_neg (Nat.not_le_of_lt hm1), hm2]

theorem GetPhysicalMonitorHandle_display_out (mc : MonitorControl) (d m : DWORD)
    (h : d ≥ mc._displays.length) :
    mc.GetPhysicalMonitorHandle d m = .error ⟨"Invalid display index"⟩ := by
  unfold GetPhysicalMonitorHandle
  rw [dif_pos h]

theorem GetPhysicalMonitorHandle_monitor_out (mc : MonitorControl) (d m : DWORD)
    (display : DisplayInfo) (hd : mc._displays[d]? = some display)
    (h : m ≥ display._physicalMonitors.length) :
    mc.GetPhysicalMonitorHandle d m = .error ⟨"Invalid physical monitor index"⟩ := by
  obtain ⟨hd1, hd2⟩ := List.getElem?_eq_some_iff.1 hd
  unfold GetPhysicalMonitorHandle
  rw [dif_neg (Nat.not_le_of_lt hd1)]
  simp only [List.get_eq_getElem, hd2]
  rw [dif_pos h]

theorem GetMonitorInputCode_of_handle {σ : Type} (dxva2 : Dxva2 σ) (mc : MonitorControl)
    (d m : DWORD) (w : World σ) (h : HANDLE) (hh : mc.GetPhysicalMonitorHandle d m = .ok h) :
    mc.GetMonitorInputCode dxva2 d m w =
      (match (dxva2.GetVCPFeatureAndVCPFeatureReply w.host h 0x60).1 with
        | none => .error ⟨"Error reading input code"⟩
        | some reply => .ok (reply.1 % 256),
       { host := (dxva2.GetVCPFeatureAndVCPFeatureReply w.host h 0x60).2
         calls := w.calls ++ [TransportCall.GetVCPFeatureAndVCPFeatureReply h 0x60] }) := by
  unfold GetMonitorInputCode ReadVcpByteFeature World.GetVCPFeatureAndVCPFeatureReply
  rw [hh]
  simp only
  cases hr : (dxva2.GetVCPFeatureAndVCPFeatureReply w.host h 0x60).1 with
  | none => rfl
  | some reply =>
    obtain ⟨cv, mv⟩ := reply
    simp only
    rw [show (0xFF : Nat) = 2 ^ 8 - 1 from rfl, Nat.and_pow_two_sub_one_eq_mod]

theorem GetMonitorInputCode_of_error {σ : Type} (dxva2 : Dxva2 σ) (mc : MonitorControl)
    (d m : DWORD) (w : World σ) (e : wruntime_error)
    (hh : mc.GetPhysicalMonitorHandle d m = .error e) :
    mc.GetMonitorInputCode dxva2 d m w = (.error e, w) := by
  unfold GetMonitorInputCode
  rw [hh]

theorem SetMonitorInputByCode_of_handle {σ : Type} (dxva2 : Dxva2 σ) (mc : MonitorControl)
    (d m : DWORD) (inputCode : BYTE) (w : World σ) (h : HANDLE)
    (hh : mc.GetPhysicalMonitorHandle d m = .ok h) :
    mc.SetMonitorInputByCode dxva2 d m inputCode w =
      (if (dxva2.SetVCPFeature w.host h 0x60 inputCode).1 = true then .ok ()
        else .error ⟨"Error setting VCP feature for monitor input"⟩,
       { host := (dxva2.SetVCPFeature w.host h 0x60 inputCode).2
         calls := w.calls ++ [TransportCall.SetVCPFeature h 0x60 inputCode] }) := by
  unfold SetMonitorInputByCode World.SetVCPFeature
  rw [hh]
  simp only
  cases hr : (dxva2.SetVCPFeature w.host h 0x60 inputCode).1 <;> simp

theorem SetMonitorInputByCode_of_error {σ : Type} (dxva2 : Dxva2 σ) (mc : MonitorControl)
    (d m : DWORD) (inputCode : BYTE) (w : World σ) (e : wruntime_error)
    (hh : mc.GetPhysicalMonitorHandle d m = .error e) :
    mc.SetMonitorInputByCode dxva2 d m inputCode w = (.error e, w) := by
  unfold SetMonitorInputByCode
  rw [hh]

end MonitorControl

/-! ## Reading and writing the input source (claims C5 to C10) -/

open MonitorControl

/-- C5: for an in-range pair of indices, `GetMonitorInputCode` makes exactly one transport
call, a get of feature 0x60 on the handle stored at that position; when the transport
reports failure the result is the error "Error reading input code", and when it replies
`(cv, mv)` the result is `cv % 256`, whatever `mv` and the high bytes of `cv` are. -/
theorem C5_GetMonitorInputCode_in_range {σ : Type} (dxva2 : Dxva2 σ) (mc : MonitorControl)
    (d m : DWORD) (w : World σ) (display : DisplayInfo) (pm : PHYSICAL_MONITOR)
    (hd : mc._displays[d]? = some display) (hm : display._physicalMonitors[m]? = some pm) :
    (mc.GetMonitorInputCode dxva2 d m w).2.calls =
      w.calls ++ [TransportCall.GetVCPFeatureAndVCPFeatureReply pm.hPhysicalMonitor 0x60] ∧
    (mc.GetMonitorInputCode dxva2 d m w).2.host =
      (dxva2.GetVCPFeatureAndVCPFeatureReply w.host pm.hPhysicalMonitor 0x60).2 ∧
    ((dxva2.GetVCPFeatureAndVCPFeatureReply w.host pm.hPhysicalMonitor 0x60).1 = none →
      (mc.GetMonitorInputCode dxva2 d m w).1 = .error ⟨"Error reading input code"⟩) ∧
    (∀ cv mv : DWORD,
      (dxva2.GetVCPFeatureAndVCPFeatureReply w.host pm.hPhysicalMonitor 0x60).1 = some (cv, mv) →
      (mc.GetMonitorInputCode dxva2 d m w).1 = .ok (cv % 256)) := by
  rw [GetMonitorInputCode_of_handle dxva2 mc d m w _
    (GetPhysicalMonitorHandle_ok mc d m display pm hd hm)]
  refine ⟨rfl, rfl, ?_, ?_⟩
  · intro h
    simp only [h]
  · intro cv mv h
    simp only [h]

/-- Witness of C5: on the sample host, monitor (0,0) replies 0x0311 and the code read
is 0x11, after the single call "get 0x60 on handle 100". -/
theorem C5_GetMonitorInputCode_in_range_witness :
    (sample_registry.GetMonitorInputCode sample_dxva2 0 0 sample_world).2.calls =
      [TransportCall.GetVCPFeatureAndVCPFeatureReply 100 0x60] ∧
    (sample_registry.GetMonitorInputCode sample_dxva2 0 0 sample_world).1 = .ok 0x11 :=
  ⟨(C5_GetMonitorInputCode_in_range sample_dxva2 sample_registry 0 0 sample_world
      _ _ rfl rfl).1,
   (C5_GetMonitorInputCode_in_range sample_dxva2 sample_registry 0 0 sample_world
      _ _ rfl rfl).2.2.2 0x0311 0x1200 rfl⟩

/-- C6: when the display index is not below the number of displays, or the monitor index
is not below the number of physical monitors of the addressed display,
`GetMonitorInputCode` and `SetMonitorInputByCode` (for any code) fail with the index error
of `GetPhysicalMonitorHandle` and leave the world as it was: no transport call is made. -/
theorem C6_index_out_of_range {σ : Type} (dxva2 : Dxva2 σ) (mc : MonitorControl)
    (d m : DWORD) (w : World σ)
    (h : d ≥ mc._displays.length ∨
      ∃ display, mc._displays[d]? = some display ∧ m ≥ display._physicalMonitors.length) :
    mc.GetMonitorInputCode dxva2 d m w =
      (.error (if d ≥ mc._displays.length then ⟨"Invalid display index"⟩
        else ⟨"Invalid physical monitor index"⟩), w) ∧
    ∀ inputCode : BYTE, mc.SetMonitorInputByCode dxva2 d m inputCode w =
      (.error (if d ≥ mc._displays.length then ⟨"Invalid display index"⟩
        else ⟨"Invalid physical monitor index"⟩), w) := by
  have hh : mc.GetPhysicalMonitorHandle d m =
      .error (if d ≥ mc._displays.length then ⟨"Invalid display index"⟩
        else ⟨"Invalid physical monitor index"⟩) := by
    by_cases hd : d ≥ mc._displays.length
    · rw [if_pos hd]
      exact GetPhysicalMonitorHandle_display_out mc d m hd
    · rw [if_neg hd]
      rcases h with h | ⟨display, hdisp, hm⟩
      · exact absurd h hd
      · exact GetPhysicalMonitorHandle_monitor_out mc d m display hdisp hm
  exact ⟨GetMonitorInputCode_of_error dxva2 mc d m w _ hh,
    fun inputCode => SetMonitorInputByCode_of_error dxva2 mc d m inputCode w _ hh⟩

/-- Witness of C6: the sample registry has one display with two monitors, so the pair
(0,2) is out of range. -/
theorem C6_index_out_of_range_witness :
    sample_registry.GetMonitorInputCode sample_dxva2 0 2 sample_world =
      (.error ⟨"Invalid physical monitor index"⟩, sample_world) ∧
    ∀ inputCode : BYTE,
      sample_registry.SetMonitorInputByCode sample_dxva2 0 2 inputCode sample_world =
        (.error ⟨"Invalid physical monitor index"⟩, sample_world) :=
  C6_index_out_of_range sample_dxva2 sample_registry 0 2 sample_world
    (Or.inr ⟨_, rfl, by decide⟩)

/-- C7: `GetMonitorInputName` fails exactly when `GetMonitorInputCode` fails, with the same
error and the same effect on the world; when the code is read it returns
`InputCodeToName` of that code: "HDMI1" for 0x11, and "UNKNOWN" (not an error) for a code
that the fixed table does not have. -/
theorem C7_GetMonitorInputName {σ : Type} (dxva2 : Dxva2 σ) (mc : MonitorControl)
    (d m : DWORD) (w : World σ) (hmit : mc._monitorInputTypes = MonitorInputTypes.ctor) :
    (mc.GetMonitorInputName dxva2 d m w).2 = (mc.GetMonitorInputCode dxva2 d m w).2 ∧
    (∀ e, (mc.GetMonitorInputName dxva2 d m w).1 = .error e ↔
      (mc.GetMonitorInputCode dxva2 d m w).1 = .error e) ∧
    (∀ c, (mc.GetMonitorInputCode dxva2 d m w).1 = .ok c →
      (mc.GetMonitorInputName dxva2 d m w).1 = .ok (MonitorInputTypes.ctor.InputCodeToName c)) ∧
    ((mc.GetMonitorInputCode dxva2 d m w).1 = .ok 0x11 →
      (mc.GetMonitorInputName dxva2 d m w).1 = .ok "HDMI1") ∧
    (∀ c, (mc.GetMonitorInputCode dxva2 d m w).1 = .ok c → c ∉ spec_knownCodes →
      (mc.GetMonitorInputName dxva2 d m w).1 = .ok "UNKNOWN") := by
  have key : ∀ c, (mc.GetMonitorInputCode dxva2 d m w).1 = .ok c →
      (mc.GetMonitorInputName dxva2 d m w).1 =
        .ok (MonitorInputTypes.ctor.InputCodeToName c) := by
    intro c hc
    unfold GetMonitorInputName
    rw [hmit]
    revert hc
    cases mc.GetMonitorInputCode dxva2 d m w with
    | mk r w1 =>
      cases r with
      | error e => intro hc; exact Except.noConfusion hc
      | ok c1 => intro hc; simp only [Except.ok.injEq] at hc; rw [hc]
  refine ⟨?_, ?_, key, ?_, ?_⟩
  · unfold GetMonitorInputName
    cases mc.GetMonitorInputCode dxva2 d m w with
    | mk r w1 => cases r <;> rfl
  · intro e
    unfold GetMonitorInputName
    cases mc.GetMonitorInputCode dxva2 d m w with
    | mk r w1 => cases r <;> simp
  · intro h
    rw [key 0x11 h]
    rfl
  · intro c hc hn
    rw [key c hc, InputCodeToName_of_not_mem c hn]

/-- Witness of C7: on the sample host the code read at (0,0) is 0x11 and the name is
"HDMI1"; at (0,1) the code read is 0x42, which the table does not have, and the name is
"UNKNOWN". -/
theorem C7_GetMonitorInputName_witness :
    (sample_registry.GetMonitorInputCode sample_dxva2 0 0 sample_world).1 = .ok 0x11 ∧
    (sample_registry.GetMonitorInputName sample_dxva2 0 0 sample_world).1 = .ok "HDMI1" ∧
    (sample_registry.GetMonitorInputCode sample_dxva2 0 1 sample_world).1 = .ok 0x42 ∧
    (sample_registry.GetMonitorInputName sample_dxva2 0 1 sample_world).1 = .ok "UNKNOWN" :=
  ⟨rfl,
   (C7_GetMonitorInputName sample_dxva2 sample_registry 0 0 sample_world rfl).2.2.2.1 rfl,
   rfl,
   (C7_GetMonitorInputName sample_dxva2 sample_registry 0 1 sample_world rfl).2.2.2.2
      0x42 rfl (by decide)⟩

/-- C8: for an in-range pair of indices and any code, in the fixed table or not,
`SetMonitorInputByCode` makes exactly one transport call, a set of feature 0x60 to the
value `inputCode` on the handle stored at that position; it succeeds exactly when the
transport acknowledges the write, and fails with the error "Error setting VCP feature for
monitor input" otherwise. -/
theorem C8_SetMonitorInputByCode_in_range {σ : Type} (dxva2 : Dxva2 σ) (mc : MonitorControl)
    (d m : DWORD) (inputCode : BYTE) (w : World σ) (display : DisplayInfo)
    (pm : PHYSICAL_MONITOR)
    (hd : mc._displays[d]? = some display) (hm : display._physicalMonitors[m]? = some pm) :
    (mc.SetMonitorInputByCode dxva2 d m inputCode w).2.calls =
      w.calls ++ [TransportCall.SetVCPFeature pm.hPhysicalMonitor 0x60 inputCode] ∧
    (mc.SetMonitorInputByCode dxva2 d m inputCode w).2.host =
      (dxva2.SetVCPFeature w.host pm.hPhysicalMonitor 0x60 inputCode).2 ∧
    ((mc.SetMonitorInputByCode dxva2 d m inputCode w).1 = .ok () ↔
      (dxva2.SetVCPFeature w.host pm.hPhysicalMonitor 0x60 inputCode).1 = true) ∧
    ((mc.SetMonitorInputByCode dxva2 d m inputCode w).1 =
        .error ⟨"Error setting VCP feature for monitor input"⟩ ↔
      (dxva2.SetVCPFeature w.host pm.hPhysicalMonitor 0x60 inputCode).1 = false) := by
  rw [SetMonitorInputByCode_of_handle dxva2 mc d m inputCode w _
    (GetPhysicalMonitorHandle_ok mc d m display pm hd hm)]
  refine ⟨rfl, rfl, ?_, ?_⟩ <;>
    cases (dxva2.SetVCPFeature w.host pm.hPhysicalMonitor 0x60 inputCode).1 <;> simp

/-- Witness of C8: on the sample host, setting monitor (0,1) to the code 0x42, which the
fixed table does not have, makes the single call "set 0x60 to 0x42 on handle 101" and
succeeds. -/
theorem C8_SetMonitorInputByCode_in_range_witness :
    (sample_registry.SetMonitorInputByCode sample_dxva2 0 1 0x42 sample_world).2.calls =
      [TransportCall.SetVCPFeature 101 0x60 0x42] ∧
    (sample_registry.SetMonitorInputByCode sample_dxva2 0 1 0x42 sample_world).1 = .ok () :=
  ⟨(C8_SetMonitorInputByCode_in_range sample_dxva2 sample_registry 0 1 0x42 sample_world
      _ _ rfl rfl).1,
   (C8_SetMonitorInputByCode_in_range sample_dxva2 sample_registry 0 1 0x42 sample_world
      _ _ rfl rfl).2.2.1.2 rfl⟩

/-- C9: when the upper-cased name is one of the 19 table names, `SetMonitorInputByName`
with that name is `SetMonitorInputByCode` with the code `InputNameToCode` gives for the
upper-cased name: same result, same world, hence same transport call. With "hdmi1" on a
registry that has an entry (0,0), the call made is a set of feature 0x60 to 0x11. -/
theorem C9_SetMonitorInputByName_known {σ : Type} (dxva2 : Dxva2 σ) (mc : MonitorControl)
    (d m : DWORD) (inputName : wstring) (w : World σ)
    (hmit : mc._monitorInputTypes = MonitorInputTypes.ctor)
    (h : transform_towupper inputName ∈ spec_knownNames) :
    (∃ c, MonitorInputTypes.ctor.InputNameToCode (transform_towupper inputName) = .ok c ∧
      (c, transform_towupper inputName) ∈ spec_fixedTable ∧
      mc.SetMonitorInputByName dxva2 d m inputName w =
        mc.SetMonitorInputByCode dxva2 d m c w) ∧
    transform_towupper "hdmi1" = "HDMI1" ∧
    transform_towupper "HdMi1" = "HDMI1" ∧
    (∀ display pm, mc._displays[0]? = some display →
      display._physicalMonitors[0]? = some pm →
      (mc.SetMonitorInputByName dxva2 0 0 "hdmi1" w).2.calls =
        w.calls ++ [TransportCall.SetVCPFeature pm.hPhysicalMonitor 0x60 0x11]) := by
  have key : ∀ (d m : DWORD) (n : wstring) (c : BYTE),
      MonitorInputTypes.ctor.InputNameToCode (transform_towupper n) = .ok c →
      mc.SetMonitorInputByName dxva2 d m n w = mc.SetMonitorInputByCode dxva2 d m c w := by
    intro d m n c hc
    unfold SetMonitorInputByName
    simp only [hmit, hc]
  refine ⟨?_, by decide, by decide, ?_⟩
  · obtain ⟨p, hp, hpn⟩ := List.mem_map.1 h
    have hp2 : (p.1, transform_towupper inputName) ∈ spec_fixedTable := by
      rw [← hpn]; exact hp
    have hc := (InputNameToCode_eq_ok_iff (transform_towupper inputName) p.1).2 hp2
    exact ⟨p.1, hc, hp2, key d m inputName p.1 hc⟩
  · intro display pm hd hm
    rw [key 0 0 "hdmi1" 0x11 rfl,
      SetMonitorInputByCode_of_handle dxva2 mc 0 0 0x11 w _
        (GetPhysicalMonitorHandle_ok mc 0 0 display pm hd hm)]

/-- Witness of C9: on the sample host, `SetMonitorInputByName(0, 0, "hdmi1")` makes the
single call "set 0x60 to 0x11 on handle 100". -/
theorem C9_SetMonitorInputByName_known_witness :
    transform_towupper "hdmi1" ∈ spec_knownNames ∧
    (sample_registry.SetMonitorInputByName sample_dxva2 0 0 "hdmi1" sample_world).2.calls =
      [TransportCall.SetVCPFeature 100 0x60 0x11] :=
  ⟨by decide,
   (C9_SetMonitorInputByName_known sample_dxva2 sample_registry 0 0 "hdmi1" sample_world
      rfl (by decide)).2.2.2 _ _ rfl rfl⟩

/-- C10: when the upper-cased name is not one of the 19 table names, `SetMonitorInputByName`
fails with the error "Invalid input name" and leaves the world as it was (no transport
call), whatever the indices are, in range or not. -/
theorem C10_SetMonitorInputByName_unknown {σ : Type} (dxva2 : Dxva2 σ) (mc : MonitorControl)
    (d m : DWORD) (inputName : wstring) (w : World σ)
    (hmit : mc._monitorInputTypes = MonitorInputTypes.ctor)
    (h : transform_towupper inputName ∉ spec_knownNames) :
    mc.SetMonitorInputByName dxva2 d m inputName w = (.error ⟨"Invalid input name"⟩, w) := by
  have he := (InputNameToCode_eq_error_iff (transform_towupper inputName)
    ⟨"Invalid input name"⟩).2 ⟨rfl, h⟩
  unfold SetMonitorInputByName
  simp only [hmit, he]

/-- Witness of C10: "VGA" is not a table name; on the sample host the call fails with
"Invalid input name" at the in-range pair (0,0) and the world is unchanged. -/
theorem C10_SetMonitorInputByName_unknown_witness :
    transform_towupper "VGA" ∉ spec_knownNames ∧
    sample_registry.SetMonitorInputByName sample_dxva2 0 0 "VGA" sample_world =
      (.error ⟨"Invalid input name"⟩, sample_world) :=
  ⟨by decide,
   C10_SetMonitorInputByName_unknown sample_dxva2 sample_registry 0 0 "VGA" sample_world
     rfl (by decide)⟩

/-! ## Lemmas on the traversals -/

theorem visitInOrder_append {S : Type}
    (visitor : MonitorVisit → S → Except wruntime_error Unit × S)
    (a b : List MonitorVisit) (s : S) :
    visitInOrder visitor (a ++ b) s =
      match visitInOrder visitor a s with
      | (.error e, s1) => (.error e, s1)
      | (.ok (), s1) => visitInOrder visitor b s1 := by
  induction a generalizing s with
  | nil => rfl
  | cons v rest ih =>
    simp only [List.cons_append, visitInOrder]
    rcases visitor v s with ⟨_ | ⟨⟨⟩⟩, s1⟩
    · rfl
    · exact ih s1

theorem visitInOrder_recordVisit (l log : List MonitorVisit) :
    visitInOrder recordVisit l log = (.ok (), log ++ l) := by
  induction l generalizing log with
  | nil => simp [visitInOrder]
  | cons v rest ih =>
    simp only [visitInOrder, recordVisit]
    rw [ih]
    simp

namespace MonitorControl

theorem VisitMonitors_physicalMonitors_eq {S : Type}
    (visitor : MonitorVisit → S → Except wruntime_error Unit × S)
    (i : DWORD) (display : DisplayInfo) (pms : List PHYSICAL_MONITOR) (j : DWORD) (s : S) :
    VisitMonitors_physicalMonitors visitor i display pms j s =
      visitInOrder visitor ((pms.enumFrom j).map (fun jm =>
        { displayIndex := i
          hDisplay := display._hMonitor
          displayDescription := display._monitorDescription
          physicalMonitorIndex := jm.1
          hPhysicalMonitor := jm.2.hPhysicalMonitor
          physicalMonitorDescription := jm.2.szPhysicalMonitorDescription })) s := by
  induction pms generalizing j s with
  | nil => rfl
  | cons pm rest ih =>
    simp only [VisitMonitors_physicalMonitors, List.enumFrom_cons, List.map_cons, visitInOrder]
    rcases visitor _ s with ⟨_ | ⟨⟨⟩⟩, s1⟩
    · rfl
    · exact ih (j + 1) s1

theorem VisitMonitors_displays_eq {S : Type}
    (visitor : MonitorVisit → S → Except wruntime_error Unit × S)
    (displays : List DisplayInfo) (i : DWORD) (s : S) :
    VisitMonitors_displays visitor displays i s =
      visitInOrder visitor (spec_visitsFrom displays i) s := by
  induction displays generalizing i s with
  | nil => rfl
  | cons d rest ih =>
    have hcons : spec_visitsFrom (d :: rest) i =
        spec_visitsOfDisplay i d 0 ++ spec_visitsFrom rest (i + 1) := by
      simp [spec_visitsFrom, List.enumFrom_cons]
    rw [hcons, visitInOrder_append]
    simp only [VisitMonitors_displays]
    rw [VisitMonitors_physicalMonitors_eq]
    simp only [spec_visitsOfDisplay]
    rcases visitInOrder visitor _ s with ⟨_ | ⟨⟨⟩⟩, s1⟩
    · rfl
    · exact ih (i + 1) s1

theorem VisitMonitors_eq {S : Type} (mc : MonitorControl)
    (visitor : MonitorVisit → S → Except wruntime_error Unit × S) (s : S) :
    mc.VisitMonitors visitor s = visitInOrder visitor (spec_visits mc) s :=
  VisitMonitors_displays_eq visitor mc._displays 0 s

theorem length_spec_visitsFrom (displays : List DisplayInfo) (i : DWORD) :
    (spec_visitsFrom displays i).length =
      (displays.map (fun d => d._physicalMonitors.length)).sum := by
  induction displays generalizing i with
  | nil => rfl
  | cons d rest ih =>
    have hcons : spec_visitsFrom (d :: rest) i =
        spec_visitsOfDisplay i d 0 ++ spec_visitsFrom rest (i + 1) := by
      simp [spec_visitsFrom, List.enumFrom_cons]
    rw [hcons, List.length_append, ih]
    simp [spec_visitsOfDisplay]

end MonitorControl

/-! ## Enumeration of monitors and of input names (claims C11 to C13) -/

/-- C11: `VisitMonitors` calls the visitor once for every physical monitor, display after
display in stored order and within a display monitor after monitor in stored order, with
the display's index, handle and description and the monitor's index, handle and
description; a display without physical monitors contributes no call. For the display
"DISPLAY1" with the monitors "Monitor A" and "Monitor B" the two calls are
(0, h0, "DISPLAY1", 0, m0, "Monitor A") and (0, h0, "DISPLAY1", 1, m1, "Monitor B"). -/
theorem C11_VisitMonitors_order :
    (∀ (mc : MonitorControl) (log : List MonitorVisit),
      mc.VisitMonitors recordVisit log = (.ok (), log ++ spec_visits mc)) ∧
    (∀ mc : MonitorControl, (spec_visits mc).length =
      (mc._displays.map (fun d => d._physicalMonitors.length)).sum) ∧
    (∀ (S : Type) (mc : MonitorControl)
      (visitor : MonitorVisit → S → Except wruntime_error Unit × S) (s : S),
      mc.VisitMonitors visitor s = visitInOrder visitor (spec_visits mc) s) ∧
    (∀ (h0 : HMONITOR) (m0 m1 : HANDLE) (mit : MonitorInputTypes),
      (MonitorControl.mk [⟨h0, "DISPLAY1", [⟨m0, "Monitor A"⟩, ⟨m1, "Monitor B"⟩]⟩] mit
        ).VisitMonitors recordVisit [] =
        (.ok (), [ ⟨0, h0, "DISPLAY1", 0, m0, "Monitor A"⟩,
                   ⟨0, h0, "DISPLAY1", 1, m1, "Monitor B"⟩ ])) ∧
    (∀ (h0 h1 h2 : HMONITOR) (m0 : HANDLE) (mit : MonitorInputTypes),
      (MonitorControl.mk [⟨h0, "D1", []⟩, ⟨h1, "D2", [⟨m0, "M"⟩]⟩, ⟨h2, "D3", []⟩] mit
        ).VisitMonitors recordVisit [] =
        (.ok (), [ ⟨1, h1, "D2", 0, m0, "M"⟩ ])) := by
  refine ⟨?_, ?_, ?_, ?_, ?_⟩
  · intro mc log
    rw [MonitorControl.VisitMonitors_eq, visitInOrder_recordVisit]
  · intro mc
    exact MonitorControl.length_spec_visitsFrom mc._displays 0
  · intro S mc visitor s
    exact MonitorControl.VisitMonitors_eq mc visitor s
  · intro h0 m0 m1 mit
    rfl
  · intro h0 h1 h2 m0 mit
    rfl

/-- C12 as stated fails: the names `VisitInputNames` visits are not in ascending-code
order (RGB1, RGB2, DVI1, ..., HDMI2, USB-C); the first name visited is "COMPONENT1". -/
theorem C12_VisitInputNames_not_code_order :
    MonitorInputTypes.ctor.VisitInputNames recordName [] ≠
      [ "RGB1", "RGB2", "DVI1", "DVI2", "COMPOSITE1", "COMPOSITE2", "SVIDEO1", "SVIDEO2",
        "TUNER1", "TUNER2", "TUNER3", "COMPONENT1", "COMPONENT2", "COMPONENT3",
        "DP1", "DP2", "HDMI1", "HDMI2", "USB-C" ] := by
  decide

/-- C12 amended: `VisitInputNames` yields the 19 known names in ascending order of the
names themselves (the key order of the name-to-code map), that is COMPONENT1, COMPONENT2,
COMPONENT3, COMPOSITE1, COMPOSITE2, DP1, DP2, DVI1, DVI2, HDMI1, HDMI2, RGB1, RGB2,
SVIDEO1, SVIDEO2, TUNER1, TUNER2, TUNER3, USB-C. -/
theorem C12_VisitInputNames_name_order :
    MonitorInputTypes.ctor.VisitInputNames recordName [] =
      [ "COMPONENT1", "COMPONENT2", "COMPONENT3", "COMPOSITE1", "COMPOSITE2", "DP1", "DP2",
        "DVI1", "DVI2", "HDMI1", "HDMI2", "RGB1", "RGB2", "SVIDEO1", "SVIDEO2",
        "TUNER1", "TUNER2", "TUNER3", "USB-C" ] ∧
    (MonitorInputTypes.ctor.VisitInputNames recordName []).Pairwise
      (fun a b => less_wstring a b = true) ∧
    (MonitorInputTypes.ctor.VisitInputNames recordName []).Perm spec_knownNames := by
  refine ⟨by decide, by decide, by decide⟩

/-- C13: `VisitInputNames` calls the visitor exactly 19 times, with 19 pairwise distinct
names, and a name is visited exactly when it is a value of the code-to-name table. -/
theorem C13_VisitInputNames_names :
    MonitorInputTypes.ctor.VisitInputNames (fun _ (count : Nat) => count + 1) 0 = 19 ∧
    (MonitorInputTypes.ctor.VisitInputNames recordName []).length = 19 ∧
    (MonitorInputTypes.ctor.VisitInputNames recordName []).Nodup ∧
    (∀ n : wstring, n ∈ MonitorInputTypes.ctor.VisitInputNames recordName [] ↔
      n ∈ MonitorInputTypes.ctor._inputCodeToName.map Prod.snd) := by
  refine ⟨by decide, by decide, by decide, ?_⟩
  have h1 : ∀ n ∈ MonitorInputTypes.ctor.VisitInputNames recordName [],
      n ∈ MonitorInputTypes.ctor._inputCodeToName.map Prod.snd := by decide
  have h2 : ∀ n ∈ MonitorInputTypes.ctor._inputCodeToName.map Prod.snd,
      n ∈ MonitorInputTypes.ctor.VisitInputNames recordName [] := by decide
  exact fun n => ⟨h1 n, h2 n⟩

/-! ## Discovery, teardown and repeated enumeration (claims C14, C15, C19) -/

namespace MonitorControl

theorem dtor_fold {σ : Type} (win32 : Win32 σ) (displays : List DisplayInfo) (p : Process σ) :
    (dtor win32 ⟨displays, MonitorInputTypes.ctor⟩ p).hostCalls =
      p.hostCalls ++ (displays.filter (fun d => decide (d._physicalMonitors.length > 0))).map
        (fun d => HostCall.DestroyPhysicalMonitors d._physicalMonitors.length
          d._physicalMonitors) ∧
    (dtor win32 ⟨displays, MonitorInputTypes.ctor⟩ p).world.calls = p.world.calls ∧
    (dtor win32 ⟨displays, MonitorInputTypes.ctor⟩ p).wcout = p.wcout := by
  induction displays generalizing p with
  | nil => simp [dtor]
  | cons d rest ih =>
    have hstep : dtor win32 ⟨d :: rest, MonitorInputTypes.ctor⟩ p =
        dtor win32 ⟨rest, MonitorInputTypes.ctor⟩
          (if d._physicalMonitors.length > 0 then
            (p.DestroyPhysicalMonitors win32 d._physicalMonitors.length
              d._physicalMonitors).2
          else p) := rfl
    rw [hstep]
    by_cases hd : d._physicalMonitors.length > 0
    · obtain ⟨h1, h2, h3⟩ := ih (p.DestroyPhysicalMonitors win32 d._physicalMonitors.length
        d._physicalMonitors).2
      simp only [if_pos hd, h1, h2, h3]
      simp [Process.DestroyPhysicalMonitors, hd]
    · obtain ⟨h1, h2, h3⟩ := ih p
      simp only [if_neg hd, h1, h2, h3]
      simp [hd]

theorem dtor_eq_of_displays {σ : Type} (win32 : Win32 σ) (mc : MonitorControl)
    (p : Process σ) :
    dtor win32 mc p = dtor win32 ⟨mc._displays, MonitorInputTypes.ctor⟩ p := rfl

theorem released_destroy_calls (displays : List DisplayInfo) :
    ((displays.filter (fun d => decide (d._physicalMonitors.length > 0))).map
        (fun d => HostCall.DestroyPhysicalMonitors d._physicalMonitors.length
          d._physicalMonitors)).flatMap HostCall.released =
      displays.flatMap (fun d => d._physicalMonitors.map (fun pm => pm.hPhysicalMonitor)) := by
  induction displays with
  | nil => rfl
  | cons d rest ih =>
    by_cases hd : d._physicalMonitors.length > 0
    · rw [List.filter_cons_of_pos (by simpa using hd)]
      simp only [List.map_cons, List.flatMap_cons, ih, HostCall.released, List.take_length]
    · rw [List.filter_cons_of_neg (by simpa using hd)]
      have hnil : d._physicalMonitors = [] := by
        cases hpm : d._physicalMonitors with
        | nil => rfl
        | cons a l => rw [hpm] at hd; simp at hd
      simp only [List.flatMap_cons, ih, hnil, List.map_nil, List.nil_append]

end MonitorControl

theorem MonitorControl.EnumDisplayMonitors_callbacks_congr {σ : Type} (win32 : Win32 σ)
    (b : Bool) (handles : List HMONITOR) (displays : List DisplayInfo) (p : Process σ) :
    MonitorControl.EnumDisplayMonitors_callbacks
        { win32 with
          EnumDisplayMonitors := fun s => ((win32.EnumDisplayMonitors s).1, b) }
        handles displays p =
      MonitorControl.EnumDisplayMonitors_callbacks win32 handles displays p := by
  induction handles generalizing displays p with
  | nil => rfl
  | cons h rest ih =>
    simp only [MonitorControl.EnumDisplayMonitors_callbacks]
    have hproc : MonitorControl.MonitorEnumProc
        { win32 with
          EnumDisplayMonitors := fun s => ((win32.EnumDisplayMonitors s).1, b) }
        h displays p = MonitorControl.MonitorEnumProc win32 h displays p := rfl
    rw [hproc]
    rcases MonitorControl.MonitorEnumProc win32 h displays p with ⟨_ | displays1, p1⟩
    · rfl
    · exact ih displays1 p1

theorem MonitorControl.MonitorEnumProc_cases {σ : Type} (win32 : Win32 σ) (h : HMONITOR)
    (displays : List DisplayInfo) (p : Process σ) :
    (∃ d : DisplayInfo, (MonitorControl.MonitorEnumProc win32 h displays p).1 =
        .ok (displays ++ [d]) ∧ d._hMonitor = h) ∨
    (∃ e : wruntime_error, (MonitorControl.MonitorEnumProc win32 h displays p).1 = .error e ∧
      (e = ⟨"Error getting monitor info"⟩ ∨
       e = ⟨"Error getting the number of physical monitors"⟩ ∨
       e = ⟨"Error getting the physical monitors"⟩)) := by
  unfold MonitorControl.MonitorEnumProc
  rcases p.GetMonitorInfo win32 h with ⟨_ | szDevice, p1⟩
  · exact Or.inr ⟨_, rfl, Or.inl rfl⟩
  · simp only
    rcases p1.GetNumberOfPhysicalMonitorsFromHMONITOR win32 h with ⟨_ | n, p2⟩
    · exact Or.inr ⟨_, rfl, Or.inr (Or.inl rfl)⟩
    · simp only
      rcases p2.GetPhysicalMonitorsFromHMONITOR win32 h n with ⟨_ | array, p3⟩
      · exact Or.inr ⟨_, rfl, Or.inr (Or.inr rfl)⟩
      · exact Or.inl ⟨_, rfl, rfl⟩

theorem MonitorControl.EnumDisplayMonitors_callbacks_result {σ : Type} (win32 : Win32 σ)
    (handles : List HMONITOR) (displays : List DisplayInfo) (p : Process σ) :
    (∃ displays1, (MonitorControl.EnumDisplayMonitors_callbacks win32 handles displays p).1 =
        .ok displays1 ∧
      displays1.map (fun d => d._hMonitor) = displays.map (fun d => d._hMonitor) ++ handles) ∨
    (∃ e : wruntime_error,
      (MonitorControl.EnumDisplayMonitors_callbacks win32 handles displays p).1 = .error e ∧
      (e = ⟨"Error getting monitor info"⟩ ∨
       e = ⟨"Error getting the number of physical monitors"⟩ ∨
       e = ⟨"Error getting the physical monitors"⟩)) := by
  induction handles generalizing displays p with
  | nil => exact Or.inl ⟨displays, rfl, by simp⟩
  | cons h rest ih =>
    simp only [MonitorControl.EnumDisplayMonitors_callbacks]
    rcases MonitorControl.MonitorEnumProc_cases win32 h displays p with
      ⟨d, hd, hdh⟩ | ⟨e, he, hmsg⟩
    · rcases hr : MonitorControl.MonitorEnumProc win32 h displays p with ⟨r, p1⟩
      rw [hr] at hd
      simp only at hd
      subst hd
      simp only
      rcases ih (displays ++ [d]) p1 with ⟨displays1, h1, h2⟩ | ⟨e, h1, h2⟩
      · refine Or.inl ⟨displays1, h1, ?_⟩
        rw [h2, List.map_append, List.map_cons, List.map_nil, hdh]
        simp
      · exact Or.inr ⟨e, h1, h2⟩
    · rcases hr : MonitorControl.MonitorEnumProc win32 h displays p with ⟨r, p1⟩
      rw [hr] at he
      simp only at he
      subst he
      exact Or.inr ⟨e, rfl, hmsg⟩

/-- C14 fails on the code: the constructor does not look at the `BOOL` that
`EnumDisplayMonitors` returns. On a host whose enumeration reports failure after the
callback has run for display 7, construction succeeds with the registry gathered so far;
in general the result of the constructor is the same whatever that `BOOL` is. The rest of
the claim holds: the constructor either fails with the error of one of the three queries,
or produces a registry that has every display the enumeration delivered, in its order. -/
theorem C14_ctor_ignores_enumeration_failure :
    (sample_win32_enumeration_fails.EnumDisplayMonitors sample_process.world.host).2 = false ∧
    (MonitorControl.ctor sample_win32_enumeration_fails sample_process).1 =
      .ok sample_registry ∧
    (∀ (σ : Type) (win32 : Win32 σ) (p : Process σ) (b : Bool),
      MonitorControl.ctor
        { win32 with
          EnumDisplayMonitors := fun s => ((win32.EnumDisplayMonitors s).1, b) } p =
      MonitorControl.ctor win32 p) ∧
    (∀ (σ : Type) (win32 : Win32 σ) (p : Process σ),
      (∃ mc : MonitorControl, (MonitorControl.ctor win32 p).1 = .ok mc ∧
        mc._displays.map (fun d => d._hMonitor) =
          (win32.EnumDisplayMonitors p.world.host).1 ∧
        mc._monitorInputTypes = MonitorInputTypes.ctor) ∨
      (∃ e : wruntime_error, (MonitorControl.ctor win32 p).1 = .error e ∧
        (e = ⟨"Error getting monitor info"⟩ ∨
         e = ⟨"Error getting the number of physical monitors"⟩ ∨
         e = ⟨"Error getting the physical monitors"⟩))) := by
  refine ⟨rfl, rfl, ?_, ?_⟩
  · intro σ win32 p b
    unfold MonitorControl.ctor
    simp only [MonitorControl.EnumDisplayMonitors_callbacks_congr]
  · intro σ win32 p
    unfold MonitorControl.ctor
    simp only
    rcases MonitorControl.EnumDisplayMonitors_callbacks_result win32
      (win32.EnumDisplayMonitors p.world.host).1 []
      { p with hostCalls := p.hostCalls ++ [HostCall.EnumDisplayMonitors] } with
      ⟨displays1, h1, h2⟩ | ⟨e, h1, h2⟩
    · rcases hr : MonitorControl.EnumDisplayMonitors_callbacks win32
        (win32.EnumDisplayMonitors p.world.host).1 []
        { p with hostCalls := p.hostCalls ++ [HostCall.EnumDisplayMonitors] } with ⟨r, p1⟩
      rw [hr] at h1
      simp only at h1
      subst h1
      exact Or.inl ⟨_, rfl, by simpa using h2, rfl⟩
    · rcases hr : MonitorControl.EnumDisplayMonitors_callbacks win32
        (win32.EnumDisplayMonitors p.world.host).1 []
        { p with hostCalls := p.hostCalls ++ [HostCall.EnumDisplayMonitors] } with ⟨r, p1⟩
      rw [hr] at h1
      simp only at h1
      subst h1
      exact Or.inr ⟨e, rfl, h2⟩

/-- C15: the destructor makes one `DestroyPhysicalMonitors` call for every display that has
physical monitors, in stored order, with that display's whole array, and makes no other
host call and no transport call. The handles so released, in order, are the concatenation
of the displays' physical-monitor lists: every stored handle once. No call is made for a
display without physical monitors, and none of the calls takes a display handle. -/
theorem C15_dtor_releases_once {σ : Type} (win32 : Win32 σ) (mc : MonitorControl)
    (p : Process σ) :
    (mc.dtor win32 p).hostCalls =
      p.hostCalls ++
        (mc._displays.filter (fun d => decide (d._physicalMonitors.length > 0))).map
          (fun d => HostCall.DestroyPhysicalMonitors d._physicalMonitors.length
            d._physicalMonitors) ∧
    ((mc.dtor win32 p).hostCalls.drop p.hostCalls.length).flatMap HostCall.released =
      mc._displays.flatMap (fun d => d._physicalMonitors.map (fun pm => pm.hPhysicalMonitor)) ∧
    (∀ c ∈ (mc.dtor win32 p).hostCalls.drop p.hostCalls.length,
      ∃ d ∈ mc._displays, d._physicalMonitors ≠ [] ∧
        c = HostCall.DestroyPhysicalMonitors d._physicalMonitors.length d._physicalMonitors) ∧
    (mc.dtor win32 p).world.calls = p.world.calls ∧
    (mc.dtor win32 p).wcout = p.wcout := by
  rw [MonitorControl.dtor_eq_of_displays]
  obtain ⟨h1, h2, h3⟩ := MonitorControl.dtor_fold win32 mc._displays p
  refine ⟨h1, ?_, ?_, h2, h3⟩
  · rw [h1, List.drop_left]
    exact MonitorControl.released_destroy_calls mc._displays
  · rw [h1, List.drop_left]
    intro c hc
    obtain ⟨d, hd, hdc⟩ := List.mem_map.1 hc
    obtain ⟨hmem, hpos⟩ := List.mem_filter.1 hd
    refine ⟨d, hmem, ?_, hdc.symm⟩
    intro hnil
    rw [hnil] at hpos
    simp at hpos

theorem visitInOrder_traced {S : Type}
    (visitor : MonitorVisit → S → Except wruntime_error Unit × S)
    (l : List MonitorVisit) (s : S) (log : List MonitorVisit) :
    (visitInOrder (traced visitor) l (s, log)).2.2 <+: log ++ l ∧
    ((visitInOrder (traced visitor) l (s, log)).1 = .ok () →
      (visitInOrder (traced visitor) l (s, log)).2.2 = log ++ l) := by
  induction l generalizing s log with
  | nil => simp [visitInOrder]
  | cons v rest ih =>
    simp only [visitInOrder, traced]
    rcases hv : visitor v s with ⟨_ | ⟨⟨⟩⟩, s1⟩
    · simp only [hv]
      refine ⟨⟨rest, by simp⟩, ?_⟩
      intro h
      exact Except.noConfusion h
    · simp only [hv]
      obtain ⟨h1, h2⟩ := ih s1 (log ++ [v])
      simp only [List.append_assoc, List.singleton_append] at h1 h2
      exact ⟨h1, h2⟩

/-- C19: the tuples a traversal visits depend on the registry alone. Two complete
traversals of one registry, by any two visitors from any two states (so also with
`GetMonitorInputCode` or `SetMonitorInputByCode` calls made in between or by the visitors
themselves), visit the same tuples in the same order, namely those of the registry; the
methods take the registry as a value and none of them changes it. -/
theorem C19_VisitMonitors_twice {S1 S2 : Type} (mc : MonitorControl)
    (visitor1 : MonitorVisit → S1 → Except wruntime_error Unit × S1)
    (visitor2 : MonitorVisit → S2 → Except wruntime_error Unit × S2) (s1 : S1) (s2 : S2)
    (h1 : (mc.VisitMonitors (traced visitor1) (s1, [])).1 = .ok ())
    (h2 : (mc.VisitMonitors (traced visitor2) (s2, [])).1 = .ok ()) :
    (mc.VisitMonitors (traced visitor1) (s1, [])).2.2 =
      (mc.VisitMonitors (traced visitor2) (s2, [])).2.2 ∧
    (mc.VisitMonitors (traced visitor1) (s1, [])).2.2 = spec_visits mc := by
  rw [MonitorControl.VisitMonitors_eq] at h1 h2 ⊢
  rw [MonitorControl.VisitMonitors_eq]
  have e1 := (visitInOrder_traced visitor1 (spec_visits mc) s1 []).2 h1
  have e2 := (visitInOrder_traced visitor2 (spec_visits mc) s2 []).2 h2
  rw [e1, e2]
  exact ⟨rfl, rfl⟩

/-- Witness of C19: on the sample host, a traversal that reads every monitor's input, then
a `GetMonitorInputCode` and a `SetMonitorInputByCode` call, then a second such traversal
from the world these calls leave: both visit monitor (0,0) and then monitor (0,1). -/
theorem C19_VisitMonitors_twice_witness :
    (sample_registry.VisitMonitors (traced (readingVisitor sample_dxva2 sample_registry))
      (sample_world, [])).2.2 =
    (sample_registry.VisitMonitors (traced (readingVisitor sample_dxva2 sample_registry))
      ((sample_registry.SetMonitorInputByCode sample_dxva2 0 1 0x0F
        (sample_registry.GetMonitorInputCode sample_dxva2 0 0 sample_world).2).2, [])).2.2 ∧
    (sample_registry.VisitMonitors (traced (readingVisitor sample_dxva2 sample_registry))
      (sample_world, [])).2.2 =
      [ ⟨0, 7, "DISPLAY1", 0, 100, "Monitor A"⟩, ⟨0, 7, "DISPLAY1", 1, 101, "Monitor B"⟩ ] :=
  C19_VisitMonitors_twice sample_registry (readingVisitor sample_dxva2 sample_registry)
    (readingVisitor sample_dxva2 sample_registry) sample_world
    ((sample_registry.SetMonitorInputByCode sample_dxva2 0 1 0x0F
      (sample_registry.GetMonitorInputCode sample_dxva2 0 0 sample_world).2).2) rfl rfl

/-! ## Lemmas on `std::stoi` and `ParseArgs` -/

theorem stoi_range (s : wstring) (v : Int) (h : stoi s = .ok v) :
    - 2 ^ 31 ≤ v ∧ v ≤ 2 ^ 31 - 1 := by
  unfold stoi at h
  simp only at h
  split_ifs at h with c1 c2 c3 c4 <;>
    first
    | exact Except.noConfusion h
    | (simp only [Except.ok.injEq] at h
       subst h
       omega)

theorem int_wrap_sub_one_of_pos (v : Int) (h1 : 1 ≤ v) (h2 : v ≤ 2 ^ 31 - 1) :
    int_wrap (v - 1) = v - 1 := by
  unfold int_wrap
  omega

theorem int_wrap_sub_one_neg (v : Int) (h1 : - 2 ^ 31 < v) (h2 : v ≤ 0) :
    int_wrap (v - 1) < 0 := by
  unfold int_wrap
  omega

theorem int_wrap_sub_one_nonneg (v : Int) (h1 : - 2 ^ 31 ≤ v) (h2 : v ≤ 2 ^ 31 - 1)
    (h : 0 ≤ int_wrap (v - 1)) : 1 ≤ v ∨ v = - 2 ^ 31 := by
  unfold int_wrap at h
  omega

theorem ParseArgs_loop_l (rest : List wstring) (a : CmdLineArgs) :
    ParseArgs_loop ("-l" :: rest) a = ParseArgs_loop rest { a with _listMonitors := true } := by
  cases rest <;> simp [ParseArgs_loop]

theorem ParseArgs_loop_i (value : wstring) (rest : List wstring) (a : CmdLineArgs) :
    ParseArgs_loop ("-i" :: value :: rest) a =
      ParseArgs_loop rest { a with _inputName := value, _setInput := true } := by
  have h : ("-i" : String) ≠ "-l" := by decide
  simp [ParseArgs_loop, h]

theorem ParseArgs_loop_d (value : wstring) (rest : List wstring) (a : CmdLineArgs) :
    ParseArgs_loop ("-d" :: value :: rest) a =
      match stoi value with
      | .error e => .error e
      | .ok n =>
        if int_wrap (n - 1) < 0 then .error (.wruntime_error ⟨"Invalid display index"⟩)
        else ParseArgs_loop rest { a with _displayIndex := (int_wrap (n - 1)).toNat } := by
  have h1 : ("-d" : String) ≠ "-l" := by decide
  have h2 : ("-d" : String) ≠ "-i" := by decide
  simp [ParseArgs_loop, h1, h2]

theorem ParseArgs_loop_m (value : wstring) (rest : List wstring) (a : CmdLineArgs) :
    ParseArgs_loop ("-m" :: value :: rest) a =
      match stoi value with
      | .error e => .error e
      | .ok n =>
        if int_wrap (n - 1) < 0 then .error (.wruntime_error ⟨"Invalid monitor index"⟩)
        else ParseArgs_loop rest { a with _physicalMonitorIndex := (int_wrap (n - 1)).toNat } := by
  have h1 : ("-m" : String) ≠ "-l" := by decide
  have h2 : ("-m" : String) ≠ "-i" := by decide
  have h3 : ("-m" : String) ≠ "-d" := by decide
  simp [ParseArgs_loop, h1, h2, h3]

theorem ParseArgs_loop_missing (a : CmdLineArgs) :
    ParseArgs_loop ["-i"] a = .error (.wruntime_error ⟨"Missing argument to -i"⟩) ∧
    ParseArgs_loop ["-d"] a = .error (.wruntime_error ⟨"Missing argument to -d"⟩) ∧
    ParseArgs_loop ["-m"] a = .error (.wruntime_error ⟨"Missing argument to -m"⟩) := by
  have h1 : ("-i" : String) ≠ "-l" := by decide
  have h2 : ("-d" : String) ≠ "-l" := by decide
  have h3 : ("-d" : String) ≠ "-i" := by decide
  have h4 : ("-m" : String) ≠ "-l" := by decide
  have h5 : ("-m" : String) ≠ "-i" := by decide
  have h6 : ("-m" : String) ≠ "-d" := by decide
  refine ⟨?_, ?_, ?_⟩ <;> simp [ParseArgs_loop, h1, h2, h3, h4, h5, h6]

theorem ParseArgs_loop_unknown (arg : wstring) (rest : List wstring) (a : CmdLineArgs)
    (h1 : arg ≠ "-l") (h2 : arg ≠ "-i") (h3 : arg ≠ "-d") (h4 : arg ≠ "-m") :
    ParseArgs_loop (arg :: rest) a =
      .error (.wruntime_error ⟨"Unknown argument: " ++ arg⟩) := by
  cases rest <;> simp [ParseArgs_loop, h1, h2, h3, h4]

theorem ParseArgs_loop_options_append (opts : List CmdOption) (rest : List wstring)
    (a : CmdLineArgs) :
    ParseArgs_loop (opts.flatMap CmdOption.toArgs ++ rest) a =
      match ParseArgs_loop (opts.flatMap CmdOption.toArgs) a with
      | .error e => .error e
      | .ok a1 => ParseArgs_loop rest a1 := by
  induction opts generalizing a with
  | nil => simp [ParseArgs_loop]
  | cons o tail ih =>
    cases o with
    | l =>
      simp only [List.flatMap_cons, CmdOption.toArgs, List.cons_append, List.nil_append,
        ParseArgs_loop_l]
      exact ih _
    | i value =>
      simp only [List.flatMap_cons, CmdOption.toArgs, List.cons_append, List.nil_append,
        ParseArgs_loop_i]
      exact ih _
    | d value =>
      simp only [List.flatMap_cons, CmdOption.toArgs, List.cons_append, List.nil_append,
        ParseArgs_loop_d]
      cases stoi value with
      | error e => rfl
      | ok n =>
        simp only
        by_cases hn : int_wrap (n - 1) < 0
        · simp only [if_pos hn]
        · simp only [if_neg hn]
          exact ih _
    | m value =>
      simp only [List.flatMap_cons, CmdOption.toArgs, List.cons_append, List.nil_append,
        ParseArgs_loop_m]
      cases stoi value with
      | error e => rfl
      | ok n =>
        simp only
        by_cases hn : int_wrap (n - 1) < 0
        · simp only [if_pos hn]
        · simp only [if_neg hn]
          exact ih _

theorem getLast?_filterMap_cons {α β : Type} (f : α → Option β) (o : α) (opts : List α) :
    ((o :: opts).filterMap f).getLast? =
      match (opts.filterMap f).getLast? with
      | some s => some s
      | none => f o := by
  rw [List.filterMap_cons]
  cases hf : opts.filterMap f with
  | nil => cases f o <;> simp
  | cons b l =>
    cases hfo : f o with
    | none => simp only; cases hl : (b :: l).getLast? with
      | none => simp at hl
      | some s => rfl
    | some c =>
      simp only [List.getLast?_cons_cons]
      cases hl : (b :: l).getLast? with
      | none => simp at hl
      | some s => rfl

theorem indexAfter_lastD_cons (o : CmdOption) (opts : List CmdOption)
    (before mid after : DWORD) (h : indexAfter (spec_lastD opts) mid after)
    (hstep : match o.dValue with
      | some s => indexAfter (some s) before mid
      | none => mid = before) :
    indexAfter (spec_lastD (o :: opts)) before after := by
  unfold spec_lastD at h ⊢
  rw [getLast?_filterMap_cons]
  cases hl : (opts.filterMap CmdOption.dValue).getLast? with
  | some s => rw [hl] at h; exact h
  | none =>
    rw [hl] at h
    have hmid : after = mid := h
    subst hmid
    cases hv : o.dValue with
    | none => rw [hv] at hstep; exact hstep
    | some s => rw [hv] at hstep; exact hstep

theorem indexAfter_lastM_cons (o : CmdOption) (opts : List CmdOption)
    (before mid after : DWORD) (h : indexAfter (spec_lastM opts) mid after)
    (hstep : match o.mValue with
      | some s => indexAfter (some s) before mid
      | none => mid = before) :
    indexAfter (spec_lastM (o :: opts)) before after := by
  unfold spec_lastM at h ⊢
  rw [getLast?_filterMap_cons]
  cases hl : (opts.filterMap CmdOption.mValue).getLast? with
  | some s => rw [hl] at h; exact h
  | none =>
    rw [hl] at h
    have hmid : after = mid := h
    subst hmid
    cases hv : o.mValue with
    | none => rw [hv] at hstep; exact hstep
    | some s => rw [hv] at hstep; exact hstep

theorem inputAfter_lastI_cons (o : CmdOption) (opts : List CmdOption)
    (before mid after : CmdLineArgs) (h : inputAfter (spec_lastI opts) mid after)
    (hstep : inputAfter o.iValue before mid) :
    inputAfter (spec_lastI (o :: opts)) before after := by
  unfold spec_lastI at h ⊢
  rw [getLast?_filterMap_cons]
  cases hl : (opts.filterMap CmdOption.iValue).getLast? with
  | some s => rw [hl] at h; exact h
  | none =>
    rw [hl] at h
    have hmid : after._inputName = mid._inputName ∧ after._setInput = mid._setInput := h
    cases hv : o.iValue with
    | none =>
      rw [hv] at hstep
      have hs : mid._inputName = before._inputName ∧ mid._setInput = before._setInput := hstep
      exact ⟨hmid.1.trans hs.1, hmid.2.trans hs.2⟩
    | some s =>
      rw [hv] at hstep
      have hs : mid._inputName = s ∧ mid._setInput = true := hstep
      exact ⟨hmid.1.trans hs.1, hmid.2.trans hs.2⟩

theorem ParseArgs_loop_ok (n : Nat) :
    ∀ (l : List wstring) (a r : CmdLineArgs), l.length ≤ n → ParseArgs_loop l a = .ok r →
      ∃ opts : List CmdOption, l = opts.flatMap CmdOption.toArgs ∧
        indexAfter (spec_lastD opts) a._displayIndex r._displayIndex ∧
        indexAfter (spec_lastM opts) a._physicalMonitorIndex r._physicalMonitorIndex ∧
        inputAfter (spec_lastI opts) a r ∧
        (r._listMonitors = true ↔ (a._listMonitors = true ∨ CmdOption.l ∈ opts)) := by
  induction n with
  | zero =>
    intro l a r hl h
    have hnil : l = [] := List.length_eq_zero.1 (Nat.le_zero.1 hl)
    subst hnil
    have hr : a = r := by simpa [ParseArgs_loop] using h
    subst hr
    exact ⟨[], rfl, rfl, rfl, ⟨rfl, rfl⟩, by simp⟩
  | succ n ih =>
    intro l a r hl h
    cases l with
    | nil =>
      have hr : a = r := by simpa [ParseArgs_loop] using h
      subst hr
      exact ⟨[], rfl, rfl, rfl, ⟨rfl, rfl⟩, by simp⟩
    | cons arg rest =>
      by_cases h1 : arg = "-l"
      · subst h1
        rw [ParseArgs_loop_l] at h
        obtain ⟨opts, ho, hD, hM, hI, hL⟩ := ih rest _ r (by simpa using hl) h
        refine ⟨CmdOption.l :: opts, by simp [ho, CmdOption.toArgs], ?_, ?_, ?_, ?_⟩
        · exact indexAfter_lastD_cons _ _ _ _ _ hD rfl
        · exact indexAfter_lastM_cons _ _ _ _ _ hM rfl
        · exact inputAfter_lastI_cons _ _ _ _ _ hI ⟨rfl, rfl⟩
        · simp [hL]
      · by_cases h2 : arg = "-i"
        · subst h2
          cases rest with
          | nil => rw [(ParseArgs_loop_missing a).1] at h; exact Except.noConfusion h
          | cons value rest1 =>
            rw [ParseArgs_loop_i] at h
            obtain ⟨opts, ho, hD, hM, hI, hL⟩ := ih rest1 _ r
              (by simp only [List.length_cons] at hl; omega) h
            refine ⟨CmdOption.i value :: opts, by simp [ho, CmdOption.toArgs], ?_, ?_, ?_, ?_⟩
            · exact indexAfter_lastD_cons _ _ _ _ _ hD rfl
            · exact indexAfter_lastM_cons _ _ _ _ _ hM rfl
            · exact inputAfter_lastI_cons _ _ _ _ _ hI ⟨rfl, rfl⟩
            · simp [hL]
        · by_cases h3 : arg = "-d"
          · subst h3
            cases rest with
            | nil => rw [(ParseArgs_loop_missing a).2.1] at h; exact Except.noConfusion h
            | cons value rest1 =>
              rw [ParseArgs_loop_d] at h
              cases hs : stoi value with
              | error e => rw [hs] at h; exact Except.noConfusion h
              | ok v =>
                rw [hs] at h
                simp only at h
                by_cases hneg : int_wrap (v - 1) < 0
                · rw [if_pos hneg] at h; exact Except.noConfusion h
                · rw [if_neg hneg] at h
                  obtain ⟨opts, ho, hD, hM, hI, hL⟩ := ih rest1 _ r
                    (by simp only [List.length_cons] at hl; omega) h
                  refine ⟨CmdOption.d value :: opts, by simp [ho, CmdOption.toArgs],
                    ?_, ?_, ?_, ?_⟩
                  · refine indexAfter_lastD_cons _ _ _ _ _ hD ?_
                    exact ⟨v, hs, Int.not_lt.1 hneg,
                      Int.toNat_of_nonneg (Int.not_lt.1 hneg)⟩
                  · exact indexAfter_lastM_cons _ _ _ _ _ hM rfl
                  · exact inputAfter_lastI_cons _ _ _ _ _ hI ⟨rfl, rfl⟩
                  · simp [hL]
          · by_cases h4 : arg = "-m"
            · subst h4
              cases rest with
              | nil => rw [(ParseArgs_loop_missing a).2.2] at h; exact Except.noConfusion h
              | cons value rest1 =>
                rw [ParseArgs_loop_m] at h
                cases hs : stoi value with
                | error e => rw [hs] at h; exact Except.noConfusion h
                | ok v =>
                  rw [hs] at h
                  simp only at h
                  by_cases hneg : int_wrap (v - 1) < 0
                  · rw [if_pos hneg] at h; exact Except.noConfusion h
                  · rw [if_neg hneg] at h
                    obtain ⟨opts, ho, hD, hM, hI, hL⟩ := ih rest1 _ r
                      (by simp only [List.length_cons] at hl; omega) h
                    refine ⟨CmdOption.m value :: opts, by simp [ho, CmdOption.toArgs],
                      ?_, ?_, ?_, ?_⟩
                    · exact indexAfter_lastD_cons _ _ _ _ _ hD rfl
                    · refine indexAfter_lastM_cons _ _ _ _ _ hM ?_
                      exact ⟨v, hs, Int.not_lt.1 hneg,
                        Int.toNat_of_nonneg (Int.not_lt.1 hneg)⟩
                    · exact inputAfter_lastI_cons _ _ _ _ _ hI ⟨rfl, rfl⟩
                    · simp [hL]
            · rw [ParseArgs_loop_unknown arg rest a h1 h2 h3 h4] at h
              exact Except.noConfusion h

theorem ParseArgs_cons (prog : wstring) (l : List wstring) :
    ParseArgs (prog :: l) = ParseArgs_loop l CmdLineArgs.ctor := rfl

theorem ParseArgs_options_append (prog : wstring) (pre : List CmdOption)
    (rest : List wstring) :
    ParseArgs (prog :: (pre.flatMap CmdOption.toArgs ++ rest)) =
      match ParseArgs (prog :: pre.flatMap CmdOption.toArgs) with
      | .error e => .error e
      | .ok a => ParseArgs_loop rest a := by
  rw [ParseArgs_cons, ParseArgs_cons, ParseArgs_loop_options_append]

/-! ## The command line (claims C16 and C20) -/

/-- C20 as stated fails: the value "-99999999999" after `-d` is an integer that is not
positive, and `ParseArgs` is left by the `std::out_of_range` exception of `std::stoi`,
not by the error "Invalid display index"; with the value "-2147483648" the subtraction
`std::stoi(...) - 1` wraps around and `ParseArgs` returns the index 2147483647. -/
theorem C20_ParseArgs_not_always_invalid_index :
    ParseArgs ["SwitchMonitorInput", "-d", "-99999999999"] =
      .error (.out_of_range "stoi argument out of range") ∧
    ParseArgs ["SwitchMonitorInput", "-d", "-99999999999"] ≠
      .error (.wruntime_error ⟨"Invalid display index"⟩) ∧
    ParseArgs ["SwitchMonitorInput", "-d", "-2147483648"] =
      .ok { _listMonitors := false, _setInput := false, _inputName := "",
            _displayIndex := 2147483647, _physicalMonitorIndex := 0 } := by
  have h : ParseArgs ["SwitchMonitorInput", "-d", "-99999999999"] =
      .error (.out_of_range "stoi argument out of range") := rfl
  refine ⟨h, ?_, rfl⟩
  rw [h]
  intro hc
  cases hc

/-- C20 amended: when the options before it are accepted (otherwise `ParseArgs` fails there,
with that earlier error), a `-d` or `-m` option followed by a value that `std::stoi` reads
as an `int` `v` with -2147483648 < v <= 0 makes `ParseArgs` fail with "Invalid display
index", respectively "Invalid monitor index"; a value on which `std::stoi` throws (not a
number, or outside the `int` range) makes that exception leave `ParseArgs`; `-i`, `-d` or
`-m` as the last argument gives "Missing argument to ...", and an argument that is none of
`-l`, `-i`, `-d`, `-m` gives "Unknown argument: ...". -/
theorem C20_ParseArgs_rejects (prog : wstring) (pre : List CmdOption) (post : List wstring)
    (s : wstring) (v : Int) (hs : stoi s = .ok v) (h1 : - 2 ^ 31 < v) (h2 : v ≤ 0) :
    (ParseArgs (prog :: (pre.flatMap CmdOption.toArgs ++ "-d" :: s :: post)) =
      match ParseArgs (prog :: pre.flatMap CmdOption.toArgs) with
      | .error e => .error e
      | .ok _ => .error (.wruntime_error ⟨"Invalid display index"⟩)) ∧
    (ParseArgs (prog :: (pre.flatMap CmdOption.toArgs ++ "-m" :: s :: post)) =
      match ParseArgs (prog :: pre.flatMap CmdOption.toArgs) with
      | .error e => .error e
      | .ok _ => .error (.wruntime_error ⟨"Invalid monitor index"⟩)) ∧
    (∀ (s1 : wstring) (e : Exception), stoi s1 = .error e →
      (ParseArgs (prog :: (pre.flatMap CmdOption.toArgs ++ "-d" :: s1 :: post)) =
        match ParseArgs (prog :: pre.flatMap CmdOption.toArgs) with
        | .error e0 => .error e0
        | .ok _ => .error e) ∧
      (ParseArgs (prog :: (pre.flatMap CmdOption.toArgs ++ "-m" :: s1 :: post)) =
        match ParseArgs (prog :: pre.flatMap CmdOption.toArgs) with
        | .error e0 => .error e0
        | .ok _ => .error e)) ∧
    (ParseArgs (prog :: (pre.flatMap CmdOption.toArgs ++ ["-i"])) =
      match ParseArgs (prog :: pre.flatMap CmdOption.toArgs) with
      | .error e => .error e
      | .ok _ => .error (.wruntime_error ⟨"Missing argument to -i"⟩)) ∧
    (ParseArgs (prog :: (pre.flatMap CmdOption.toArgs ++ ["-d"])) =
      match ParseArgs (prog :: pre.flatMap CmdOption.toArgs) with
      | .error e => .error e
      | .ok _ => .error (.wruntime_error ⟨"Missing argument to -d"⟩)) ∧
    (ParseArgs (prog :: (pre.flatMap CmdOption.toArgs ++ ["-m"])) =
      match ParseArgs (prog :: pre.flatMap CmdOption.toArgs) with
      | .error e => .error e
      | .ok _ => .error (.wruntime_error ⟨"Missing argument to -m"⟩)) ∧
    (∀ arg : wstring, arg ≠ "-l" → arg ≠ "-i" → arg ≠ "-d" → arg ≠ "-m" →
      ParseArgs (prog :: (pre.flatMap CmdOption.toArgs ++ arg :: post)) =
        match ParseArgs (prog :: pre.flatMap CmdOption.toArgs) with
        | .error e => .error e
        | .ok _ => .error (.wruntime_error ⟨"Unknown argument: " ++ arg⟩)) := by
  have hneg : int_wrap (v - 1) < 0 := int_wrap_sub_one_neg v h1 h2
  refine ⟨?_, ?_, ?_, ?_, ?_, ?_, ?_⟩
  · rw [ParseArgs_options_append]
    cases ParseArgs (prog :: pre.flatMap CmdOption.toArgs) with
    | error e => rfl
    | ok a => simp only [ParseArgs_loop_d, hs, if_pos hneg]
  · rw [ParseArgs_options_append]
    cases ParseArgs (prog :: pre.flatMap CmdOption.toArgs) with
    | error e => rfl
    | ok a => simp only [ParseArgs_loop_m, hs, if_pos hneg]
  · intro s1 e he
    constructor
    · rw [ParseArgs_options_append]
      cases ParseArgs (prog :: pre.flatMap CmdOption.toArgs) with
      | error e => rfl
      | ok a => simp only [ParseArgs_loop_d, he]
    · rw [ParseArgs_options_append]
      cases ParseArgs (prog :: pre.flatMap CmdOption.toArgs) with
      | error e => rfl
      | ok a => simp only [ParseArgs_loop_m, he]
  · rw [ParseArgs_options_append]
    cases ParseArgs (prog :: pre.flatMap CmdOption.toArgs) with
    | error e => rfl
    | ok a => exact (ParseArgs_loop_missing a).1
  · rw [ParseArgs_options_append]
    cases ParseArgs (prog :: pre.flatMap CmdOption.toArgs) with
    | error e => rfl
    | ok a => exact (ParseArgs_loop_missing a).2.1
  · rw [ParseArgs_options_append]
    cases ParseArgs (prog :: pre.flatMap CmdOption.toArgs) with
    | error e => rfl
    | ok a => exact (ParseArgs_loop_missing a).2.2
  · intro arg g1 g2 g3 g4
    rw [ParseArgs_options_append]
    cases ParseArgs (prog :: pre.flatMap CmdOption.toArgs) with
    | error e => rfl
    | ok a => exact ParseArgs_loop_unknown arg post a g1 g2 g3 g4

/-- Witness of C20: after the accepted option `-l`, the option `-d 0` makes `ParseArgs`
fail with "Invalid display index", and `-m 0` with "Invalid monitor index". -/
theorem C20_ParseArgs_rejects_witness :
    ParseArgs ["SwitchMonitorInput", "-l", "-d", "0", "-i", "dp1"] =
      .error (.wruntime_error ⟨"Invalid display index"⟩) ∧
    ParseArgs ["SwitchMonitorInput", "-l", "-m", "0", "-i", "dp1"] =
      .error (.wruntime_error ⟨"Invalid monitor index"⟩) :=
  ⟨(C20_ParseArgs_rejects "SwitchMonitorInput" [CmdOption.l] ["-i", "dp1"] "0" 0 rfl
      (by decide) (by decide)).1,
   (C20_ParseArgs_rejects "SwitchMonitorInput" [CmdOption.l] ["-i", "dp1"] "0" 0 rfl
      (by decide) (by decide)).2.1⟩

/-! ## Lemmas on `wmain` -/

theorem dtor_calls {σ : Type} (win32 : Win32 σ) (mc : MonitorControl) (p : Process σ) :
    (mc.dtor win32 p).world.calls = p.world.calls ∧ (mc.dtor win32 p).wcout = p.wcout := by
  rw [MonitorControl.dtor_eq_of_displays]
  exact (MonitorControl.dtor_fold win32 mc._displays p).2

theorem wmain_of_accepted {σ : Type} (win32 : Win32 σ) (argv : List wstring) (p p1 : Process σ)
    (args : CmdLineArgs) (mc : MonitorControl) (hlen : 2 ≤ argv.length)
    (hparse : ParseArgs argv = .ok args) (hctor : MonitorControl.ctor win32 p = (.ok mc, p1)) :
    wmain win32 argv p =
      match wmain_list win32 mc args p1 with
      | (.error e, p2) => wmain_catch e (mc.dtor win32 p2)
      | (.ok (), p2) =>
        match wmain_set win32 mc args p2 with
        | (.error e, p3) => wmain_catch e (mc.dtor win32 p3)
        | (.ok (), p3) => (Exit.returned 0, mc.dtor win32 p3) := by
  unfold wmain
  rw [if_neg (by omega)]
  simp only [hparse, hctor]

theorem wmain_set_calls {σ : Type} (win32 : Win32 σ) (argv : List wstring) (p p1 : Process σ)
    (args : CmdLineArgs) (mc : MonitorControl) (hlen : 2 ≤ argv.length)
    (hparse : ParseArgs argv = .ok args) (hctor : MonitorControl.ctor win32 p = (.ok mc, p1))
    (hlist : args._listMonitors = false) (hset : args._setInput = true) :
    (wmain win32 argv p).2.world.calls =
      (mc.SetMonitorInputByName win32.toDxva2 args._displayIndex args._physicalMonitorIndex
        args._inputName p1.world).2.calls := by
  rw [wmain_of_accepted win32 argv p p1 args mc hlen hparse hctor]
  simp only [wmain_list, hlist, wmain_set, hset, if_true, Bool.false_eq_true, if_false]
  rcases mc.SetMonitorInputByName win32.toDxva2 args._displayIndex args._physicalMonitorIndex
    args._inputName p1.world with ⟨_ | ⟨⟨⟩⟩, w1⟩
  · simp only [wmain_catch, Process.print]
    exact (dtor_calls win32 mc _).1
  · simp only
    exact (dtor_calls win32 mc _).1

/-- C16: an argument list that `ParseArgs` accepts is a sequence of options `-l`,
`-i name`, `-d v`, `-m v`. The display index it yields is 0 when there is no `-d` option
and `v - 1` when the last `-d` option carries the 1-based value `v` (that is `1 <= v`);
likewise the monitor index for `-m`; the input name is that of the last `-i` option. The
set operation of `wmain` (no `-l` given) makes the transport calls of
`SetMonitorInputByName` with exactly these indices and this name on the registry that
discovery produced. -/
theorem C16_ParseArgs_indices (argv : List wstring) (args : CmdLineArgs)
    (h : ParseArgs argv = .ok args) :
    ∃ opts : List CmdOption, argv.drop 1 = opts.flatMap CmdOption.toArgs ∧
      (match spec_lastD opts with
        | none => args._displayIndex = 0
        | some s => ∃ v : Int, stoi s = .ok v ∧
            (1 ≤ v → (args._displayIndex : Int) = v - 1)) ∧
      (match spec_lastM opts with
        | none => args._physicalMonitorIndex = 0
        | some s => ∃ v : Int, stoi s = .ok v ∧
            (1 ≤ v → (args._physicalMonitorIndex : Int) = v - 1)) ∧
      (match spec_lastI opts with
        | none => args._setInput = false
        | some name => args._setInput = true ∧ args._inputName = name) ∧
      (∀ (σ : Type) (win32 : Win32 σ) (p p1 : Process σ) (mc : MonitorControl),
        2 ≤ argv.length → MonitorControl.ctor win32 p = (.ok mc, p1) →
        args._listMonitors = false → args._setInput = true →
        (wmain win32 argv p).2.world.calls =
          (mc.SetMonitorInputByName win32.toDxva2 args._displayIndex
            args._physicalMonitorIndex args._inputName p1.world).2.calls) := by
  obtain ⟨opts, ho, hD, hM, hI, _⟩ :=
    ParseArgs_loop_ok (argv.drop 1).length (argv.drop 1) CmdLineArgs.ctor args (Nat.le_refl _) h
  refine ⟨opts, ho, ?_, ?_, ?_, ?_⟩
  · unfold indexAfter at hD
    cases hl : spec_lastD opts with
    | none => rw [hl] at hD; exact hD
    | some s =>
      rw [hl] at hD
      obtain ⟨v, hv, _, hidx⟩ := hD
      refine ⟨v, hv, fun h1 => ?_⟩
      rw [hidx, int_wrap_sub_one_of_pos v h1 (stoi_range s v hv).2]
  · unfold indexAfter at hM
    cases hl : spec_lastM opts with
    | none => rw [hl] at hM; exact hM
    | some s =>
      rw [hl] at hM
      obtain ⟨v, hv, _, hidx⟩ := hM
      refine ⟨v, hv, fun h1 => ?_⟩
      rw [hidx, int_wrap_sub_one_of_pos v h1 (stoi_range s v hv).2]
  · unfold inputAfter at hI
    cases hl : spec_lastI opts with
    | none => rw [hl] at hI; exact hI.2
    | some name => rw [hl] at hI; exact ⟨hI.2, hI.1⟩
  · intro σ win32 p p1 mc hlen hctor hlist hset
    exact wmain_set_calls win32 argv p p1 args mc hlen h hctor hlist hset

/-- Witness of C16: for `-d 1 -d 2 -i hdmi1` the last `-d` value is 2 and the display index
is 1, the monitor index is 0 by default; for `-i dp1` alone both indices are 0, and on the
sample host `wmain` then sets feature 0x60 of monitor (0,0), handle 100, to 0x0F. -/
theorem C16_ParseArgs_indices_witness :
    ParseArgs ["SwitchMonitorInput", "-d", "1", "-d", "2", "-i", "hdmi1"] =
      .ok { _listMonitors := false, _setInput := true, _inputName := "hdmi1",
            _displayIndex := 1, _physicalMonitorIndex := 0 } ∧
    (∃ opts : List CmdOption,
      ["SwitchMonitorInput", "-d", "1", "-d", "2", "-i", "hdmi1"].drop 1 =
        opts.flatMap CmdOption.toArgs ∧
      (match spec_lastD opts with
        | none => (1 : DWORD) = 0
        | some s => ∃ v : Int, stoi s = .ok v ∧ (1 ≤ v → ((1 : DWORD) : Int) = v - 1)) ∧
      (match spec_lastM opts with
        | none => (0 : DWORD) = 0
        | some s => ∃ v : Int, stoi s = .ok v ∧ (1 ≤ v → ((0 : DWORD) : Int) = v - 1)) ∧
      (match spec_lastI opts with
        | none => true = false
        | some name => true = true ∧ "hdmi1" = name) ∧
      (∀ (σ : Type) (win32 : Win32 σ) (p p1 : Process σ) (mc : MonitorControl),
        2 ≤ ["SwitchMonitorInput", "-d", "1", "-d", "2", "-i", "hdmi1"].length →
        MonitorControl.ctor win32 p = (.ok mc, p1) →
        false = false → true = true →
        (wmain win32 ["SwitchMonitorInput", "-d", "1", "-d", "2", "-i", "hdmi1"] p).2.world.calls =
          (mc.SetMonitorInputByName win32.toDxva2 1 0 "hdmi1" p1.world).2.calls)) ∧
    ParseArgs ["SwitchMonitorInput", "-i", "dp1"] =
      .ok { _listMonitors := false, _setInput := true, _inputName := "dp1",
            _displayIndex := 0, _physicalMonitorIndex := 0 } ∧
    (wmain sample_win32 ["SwitchMonitorInput", "-i", "dp1"] sample_process).2.world.calls =
      [TransportCall.SetVCPFeature 100 0x60 0x0F] :=
  ⟨rfl,
   C16_ParseArgs_indices ["SwitchMonitorInput", "-d", "1", "-d", "2", "-i", "hdmi1"]
     { _listMonitors := false, _setInput := true, _inputName := "hdmi1",
       _displayIndex := 1, _physicalMonitorIndex := 0 } rfl,
   rfl, rfl⟩

theorem foldl_print_frame {σ : Type} (f : wstring → wstring)
    (l : List (wstring × BYTE)) (p : Process σ) :
    (l.foldl (fun (q : Process σ) pair => q.print (f pair.1)) p).world = p.world ∧
    (l.foldl (fun (q : Process σ) pair => q.print (f pair.1)) p).hostCalls = p.hostCalls := by
  induction l generalizing p with
  | nil => exact ⟨rfl, rfl⟩
  | cons a rest ih =>
    simp only [List.foldl_cons]
    exact ih (p.print (f a.1))

theorem VisitInputNames_print_frame {σ : Type} (mit : MonitorInputTypes)
    (f : wstring → wstring) (p : Process σ) :
    (mit.VisitInputNames (fun inputName (q : Process σ) => q.print (f inputName)) p).world =
      p.world ∧
    (mit.VisitInputNames (fun inputName (q : Process σ) => q.print (f inputName)) p).hostCalls =
      p.hostCalls :=
  foldl_print_frame f mit._inputNameToCode p

theorem PrintUsage_frame {σ : Type} (progName : wstring) (p : Process σ) :
    (PrintUsage progName p).world = p.world ∧
    (PrintUsage progName p).hostCalls = p.hostCalls := by
  unfold PrintUsage
  simp only
  constructor
  · rw [(VisitInputNames_print_frame MonitorInputTypes.ctor
      (fun inputName => "  " ++ inputName ++ "\n") _).1]
    rfl
  · rw [(VisitInputNames_print_frame MonitorInputTypes.ctor
      (fun inputName => "  " ++ inputName ++ "\n") _).2]
    rfl

theorem wmain_returned_one {σ : Type} (win32 : Win32 σ) (argv : List wstring) (p : Process σ)
    (h : (wmain win32 argv p).1 = Exit.returned 1) :
    ∃ (e : wruntime_error) (q : Process σ),
      wmain win32 argv p = (Exit.returned 1, q.print (e.wide_message ++ "\n")) := by
  revert h
  unfold wmain
  by_cases hlen : argv.length < 2
  · rw [if_pos hlen]
    intro h
    simp at h
  · rw [if_neg hlen]
    cases hp : ParseArgs argv with
    | error e0 =>
      cases e0 with
      | wruntime_error w0 => intro _; exact ⟨w0, p, rfl⟩
      | invalid_argument what => intro h; exact Exit.noConfusion h
      | out_of_range what => intro h; exact Exit.noConfusion h
    | ok args =>
      simp only
      rcases MonitorControl.ctor win32 p with ⟨e1 | mc, p1⟩
      · intro _; exact ⟨e1, p1, rfl⟩
      · simp only
        rcases wmain_list win32 mc args p1 with ⟨e2 | ⟨⟨⟩⟩, p2⟩
        · intro _; exact ⟨e2, _, rfl⟩
        · simp only
          rcases wmain_set win32 mc args p2 with ⟨e3 | ⟨⟨⟩⟩, p3⟩
          · intro _; exact ⟨e3, _, rfl⟩
          · intro h
            simp at h

theorem wmain_terminate_iff {σ : Type} (win32 : Win32 σ) (argv : List wstring) (p : Process σ)
    (e : Exception) :
    (wmain win32 argv p).1 = Exit.terminate e ↔
      (2 ≤ argv.length ∧ ParseArgs argv = .error e ∧ ∀ w, e ≠ Exception.wruntime_error w) := by
  unfold wmain
  by_cases hlen : argv.length < 2
  · rw [if_pos hlen]
    constructor
    · intro h; exact Exit.noConfusion h
    · intro h; omega
  · rw [if_neg hlen]
    cases hp : ParseArgs argv with
    | error e0 =>
      cases e0 with
      | wruntime_error w0 =>
        simp only [wmain_catch]
        constructor
        · intro h; exact Exit.noConfusion h
        · rintro ⟨_, h2, h3⟩
          simp only [Except.error.injEq] at h2
          exact absurd h2.symm (h3 w0)
      | invalid_argument what =>
        simp only [Exit.terminate.injEq, Except.error.injEq]
        constructor
        · intro h; subst h; exact ⟨by omega, rfl, fun w hw => Exception.noConfusion hw⟩
        · rintro ⟨_, h2, _⟩; exact h2
      | out_of_range what =>
        simp only [Exit.terminate.injEq, Except.error.injEq]
        constructor
        · intro h; subst h; exact ⟨by omega, rfl, fun w hw => Exception.noConfusion hw⟩
        · rintro ⟨_, h2, _⟩; exact h2
    | ok args =>
      simp only
      constructor
      · intro h
        exfalso
        revert h
        rcases MonitorControl.ctor win32 p with ⟨e1 | mc, p1⟩
        · intro h; exact Exit.noConfusion h
        · simp only
          rcases wmain_list win32 mc args p1 with ⟨e2 | ⟨⟨⟩⟩, p2⟩
          · intro h; exact Exit.noConfusion h
          · simp only
            rcases wmain_set win32 mc args p2 with ⟨e3 | ⟨⟨⟩⟩, p3⟩
            · intro h; exact Exit.noConfusion h
            · intro h; exact Exit.noConfusion h
      · rintro ⟨_, h2, _⟩
        exact Except.noConfusion h2

/-! ## The process: exit code and listing (claims C17 and C18) -/

/-- C17 fails on the code for an error of argument parsing that is not a `wruntime_error`:
with the arguments `-d abc`, `std::stoi` throws `std::invalid_argument`, the handler
`catch (wruntime_error e)` does not match, and the exception leaves `wmain`: no exit code 1
and nothing printed. In general `wmain` is left by an exception exactly when `ParseArgs`
throws one that is not a `wruntime_error`. The other parts of the claim hold: without
arguments `wmain` prints the usage, makes no host or transport call and returns 0, and
whenever it returns 1 the last thing printed is the message of the error caught. -/
theorem C17_wmain_uncaught_stoi_exception :
    ParseArgs ["SwitchMonitorInput", "-d", "abc"] =
      .error (.invalid_argument "invalid stoi argument") ∧
    (wmain sample_win32 ["SwitchMonitorInput", "-d", "abc"] sample_process).1 =
      Exit.terminate (.invalid_argument "invalid stoi argument") ∧
    (wmain sample_win32 ["SwitchMonitorInput", "-d", "abc"] sample_process).2.wcout = "" ∧
    (∀ (σ : Type) (win32 : Win32 σ) (argv : List wstring) (p : Process σ) (e : Exception),
      (wmain win32 argv p).1 = Exit.terminate e ↔
        (2 ≤ argv.length ∧ ParseArgs argv = .error e ∧
          ∀ w, e ≠ Exception.wruntime_error w)) ∧
    (∀ (σ : Type) (win32 : Win32 σ) (argv : List wstring) (p : Process σ),
      argv.length < 2 →
        wmain win32 argv p = (Exit.returned 0, PrintUsage (argv.headD "") p) ∧
        (wmain win32 argv p).2.world = p.world ∧
        (wmain win32 argv p).2.hostCalls = p.hostCalls) ∧
    (∀ (σ : Type) (win32 : Win32 σ) (argv : List wstring) (p : Process σ),
      (wmain win32 argv p).1 = Exit.returned 1 →
        ∃ (e : wruntime_error) (q : Process σ),
          wmain win32 argv p = (Exit.returned 1, q.print (e.wide_message ++ "\n"))) := by
  refine ⟨rfl, rfl, rfl, ?_, ?_, ?_⟩
  · intro σ win32 argv p e
    exact wmain_terminate_iff win32 argv p e
  · intro σ win32 argv p hlen
    have hw : wmain win32 argv p = (Exit.returned 0, PrintUsage (argv.headD "") p) := by
      unfold wmain
      rw [if_pos hlen]
    rw [hw]
    exact ⟨rfl, (PrintUsage_frame _ p).1, (PrintUsage_frame _ p).2⟩
  · intro σ win32 argv p h
    exact wmain_returned_one win32 argv p h

/-- C18 as stated fails: the line `wmain` writes for a listed monitor begins with two
spaces, which the stated format does not have. On the sample host the output of `-l` is
the header "Monitors: " and the two indented lines. -/
theorem C18_list_line_is_indented :
    (wmain sample_win32 ["SwitchMonitorInput", "-l"] sample_process).2.wcout =
      "Monitors: \n" ++
      "  " ++ spec_listLine ⟨0, 7, "DISPLAY1", 0, 100, "Monitor A"⟩ "HDMI1" ++ "\n" ++
      "  " ++ spec_listLine ⟨0, 7, "DISPLAY1", 1, 101, "Monitor B"⟩ "UNKNOWN" ++ "\n" ∧
    (wmain sample_win32 ["SwitchMonitorInput", "-l"] sample_process).2.wcout ≠
      "Monitors: \n" ++
      spec_listLine ⟨0, 7, "DISPLAY1", 0, 100, "Monitor A"⟩ "HDMI1" ++ "\n" ++
      spec_listLine ⟨0, 7, "DISPLAY1", 1, 101, "Monitor B"⟩ "UNKNOWN" ++ "\n" ∧
    (wmain_visitor sample_win32 sample_registry ⟨0, 7, "DISPLAY1", 0, 100, "Monitor A"⟩
        sample_process).2.wcout ≠
      spec_listLine ⟨0, 7, "DISPLAY1", 0, 100, "Monitor A"⟩ "HDMI1" ++ "\n" := by
  refine ⟨by decide, by decide, by decide⟩

/-- C18 amended: for the list operation `wmain` runs its visitor over the physical monitors
in enumeration order, and for a monitor whose input name `GetMonitorInputName` returns,
the visitor appends to the output two spaces and then
`<display-description>\MONITOR<n>: "<monitor-description>" on input: <name>` and a line
feed, where n is the monitor's index within its display plus 1. -/
theorem C18_list_line {σ : Type} (win32 : Win32 σ) (mc : MonitorControl) (v : MonitorVisit)
    (p : Process σ) (inputName : wstring) (w1 : World σ)
    (h : mc.GetMonitorInputName win32.toDxva2 v.displayIndex v.physicalMonitorIndex p.world =
      (.ok inputName, w1)) :
    wmain_visitor win32 mc v p =
      (.ok (), { world := w1, hostCalls := p.hostCalls,
                 wcout := p.wcout ++ listLine v inputName }) ∧
    listLine v inputName = "  " ++ spec_listLine v inputName ++ "\n" ∧
    spec_listLine v inputName =
      v.displayDescription ++ "\\MONITOR" ++ toString (v.physicalMonitorIndex + 1) ++ ": \""
        ++ v.physicalMonitorDescription ++ "\" on input: " ++ inputName ∧
    (∀ args : CmdLineArgs, args._listMonitors = true →
      wmain_list win32 mc args p =
        visitInOrder (wmain_visitor win32 mc) (spec_visits mc)
          (p.print ("Monitors: " ++ "\n"))) := by
  refine ⟨?_, ?_, rfl, ?_⟩
  · unfold wmain_visitor
    have hw : (p.print ("  " ++ v.displayDescription ++ "\\MONITOR"
        ++ toString (v.physicalMonitorIndex + 1) ++ ": \"" ++ v.physicalMonitorDescription
        ++ "\" on input: ")).world = p.world := rfl
    simp only [hw, h, Process.print, listLine, String.append_assoc]
  · simp only [listLine, spec_listLine, String.append_assoc]
  · intro args hl
    unfold wmain_list
    rw [if_pos hl, MonitorControl.VisitMonitors_eq]

/-- Witness of C18: on the sample host monitor (0,1) reads the code 0x42, which the table
does not have, and its line is `  DISPLAY1\MONITOR2: "Monitor B" on input: UNKNOWN`. -/
theorem C18_list_line_witness :
    (wmain_visitor sample_win32 sample_registry ⟨0, 7, "DISPLAY1", 1, 101, "Monitor B"⟩
        sample_process).2.wcout =
      "  DISPLAY1\\MONITOR2: \"Monitor B\" on input: UNKNOWN\n" ∧
    (wmain_visitor sample_win32 sample_registry ⟨0, 7, "DISPLAY1", 1, 101, "Monitor B"⟩
        sample_process).1 = .ok () :=
  ⟨congrArg (fun r => r.2.wcout)
      (C18_list_line sample_win32 sample_registry ⟨0, 7, "DISPLAY1", 1, 101, "Monitor B"⟩
        sample_process "UNKNOWN" _ rfl).1,
   congrArg (fun r => r.1)
      (C18_list_line sample_win32 sample_registry ⟨0, 7, "DISPLAY1", 1, 101, "Monitor B"⟩
        sample_process "UNKNOWN" _ rfl).1⟩

end SwitchMonitorInput
